import Mathlib

/-!
Verification development for the multi-criteria decision-support engine
(`Scoring`, `SensitivityAnalysis`, `MonteCarlo` modules).

The JavaScript source is shallowly embedded:
* JS numbers are modelled as `ℚ` (all arithmetic in the engine is exact
  decimal arithmetic on small values);
* a JS object used as a string-keyed score map is modelled as a function
  `String → Option ℚ` (`none` = property absent / `undefined`);
* the JS idiom `x || d` applied to numbers (which substitutes `d` both for
  `undefined` and for the falsy number `0`) is modelled by `jsOr`;
* `parseFloat` of the budget / cost strings is abstracted to an
  `Option ℚ` input (`none` = absent, empty or unparsable, i.e. the `NaN`
  guard branch);
* `Array.prototype.sort`, which is a stable sort, is modelled by a stable
  insertion sort `sortByKey` (descending in the key, since every comparator
  in the source is of the form `(a, b) => key b - key a`);
* `Math.random()` outputs are modelled as an explicit argument: the random
  source is a function giving the value consumed by trial index, option
  index and criterion index (each `Math.random()` call is independent, so
  indexing the stream by call site is faithful);
* criterion weights are integers 1–10 per the data model and are modelled
  as `ℕ` (the sensitivity scan loops step by 1 over integer weights).
-/

/-- JS `x || d` on an optional number: `undefined` and `0` both give `d`. -/
def jsOr (x : Option ℚ) (d : ℚ) : ℚ :=
  match x with
  | none => d
  | some v => if v = 0 then d else v

/-- JS `x || d` on an optional natural number (used for weight lookups). -/
def jsOrN (x : Option ℕ) (d : ℕ) : ℕ :=
  match x with
  | none => d
  | some v => if v = 0 then d else v

/-- JS `Math.round`: round half toward positive infinity. -/
def jsRound (q : ℚ) : ℤ := ⌊q + 1/2⌋

/-- JS `Number.prototype.toFixed(1)`: one decimal digit, ties toward `+∞`. -/
def toFixed1 (q : ℚ) : String :=
  let n : ℤ := ⌊q * 10 + 1/2⌋
  let s : String := toString (n.natAbs / 10) ++ "." ++ toString (n.natAbs % 10)
  if n < 0 then "-" ++ s else s

/-- A weighted evaluation criterion. -/
structure Criterion where
  id : String
  name : String
  weight : ℕ
deriving DecidableEq

/-- A candidate option as fed to the engine.  `scores` maps a criterion id
to the recorded 0–10 score (`none` = no score recorded). -/
structure JsOption where
  id : String
  name : String
  scores : String → Option ℚ
  estimatedCost : Option ℚ
  constraintCompliance : Option ℚ

/-- Soft constraints.  `budget` is the parsed numeric value of the budget
string (`none` when the string is absent, empty or does not parse). -/
structure Constraints where
  budget : Option ℚ
  deadline : Option String
  notes : Option String

/-- Result record of `Scoring.calculateScore`. -/
structure ScoreData where
  raw : ℚ
  max : ℚ
  normalized : ℚ
deriving DecidableEq

/-- A constraint violation entry. -/
structure Violation where
  type : String
  severity : String
  message : String
deriving DecidableEq

/-- Result record of `Scoring.calculateConstraintPenalty`. -/
structure PenaltyData where
  factor : ℚ
  violations : List Violation
deriving DecidableEq

/-- One per-criterion entry of `Scoring.getCriteriaBreakdown`. -/
structure CriteriaScore where
  criterionId : String
  criterionName : String
  weight : ℕ
  score : ℚ
  weightedScore : ℚ
deriving DecidableEq

/-- A scored, ranked option (the object produced by `generateRankings`,
i.e. the input option spread together with the derived score fields;
`rank` is `0` until assigned by the ranking loop). -/
structure RankedOption where
  id : String
  name : String
  scores : String → Option ℚ
  estimatedCost : Option ℚ
  constraintCompliance : Option ℚ
  totalScore : ℚ
  rawScore : ℚ
  maxPossible : ℚ
  normalizedScore : ℚ
  rawNormalizedScore : ℚ
  constraintPenalty : ℚ
  constraintViolations : List Violation
  criteriaScores : List CriteriaScore
  rank : ℕ

/-- Confidence record of `Scoring.calculateConfidence`. -/
structure Confidence where
  level : String
  value : ℚ
  label : String
  message : Option String
deriving DecidableEq

/-- A strength entry of `Scoring.findStrengths`. -/
structure StrengthEntry where
  id : String
  name : String
  score : ℚ
  advantage : ℚ
deriving DecidableEq

/-- A weakness entry of `Scoring.findWeaknesses`. -/
structure WeaknessEntry where
  id : String
  name : String
  score : ℚ
  deficit : ℚ
deriving DecidableEq

/-- A per-option trade-off entry of `Scoring.generateTradeoffs`. -/
structure Tradeoff where
  optionId : String
  optionName : String
  pros : List String
  cons : List String
deriving DecidableEq

/-- Analysis record of `Scoring.generateAnalysis`. -/
structure Analysis where
  winner : String
  runnerUp : Option String
  strengths : List StrengthEntry
  weaknesses : List WeaknessEntry
  rationale : String
  constraintWarnings : List String
  tradeoffs : List Tradeoff
deriving DecidableEq

/-- The JS value stored in the `confidence` field of the result of
`generateRankings`: the number `0` on the empty path, a `Confidence`
object otherwise. -/
inductive ConfValue where
  | num (q : ℚ)
  | conf (c : Confidence)
deriving DecidableEq

/-- Result record of `Scoring.generateRankings`. -/
structure RankingResult where
  rankings : List RankedOption
  confidence : ConfValue
  analysis : Option Analysis

/- ### Stable sorting

Every comparator passed to `Array.prototype.sort` in the source has the
form `(a, b) => keyOf b - keyOf a`, i.e. a stable descending sort by a
numeric key.  `sortByKey` is a stable insertion sort realising exactly
that specification. -/

/-- Insert `x` into `l` after every element whose key is strictly larger
(so, for equal keys, after the elements already present — the elements
already present come earlier in the input, giving stability). -/
def insertByKey (key : α → ℚ) (x : α) : List α → List α
  | [] => [x]
  | y :: ys => if key x < key y then y :: insertByKey key x ys else x :: y :: ys

/-- Stable insertion sort, descending by `key`. -/
def sortByKey (key : α → ℚ) : List α → List α
  | [] => []
  | x :: xs => insertByKey key x (sortByKey key xs)

theorem mem_insertByKey (key : α → ℚ) (x : α) (l : List α) (a : α) :
    a ∈ insertByKey key x l ↔ a = x ∨ a ∈ l := by
  induction l with
  | nil => simp [insertByKey]
  | cons y ys ih =>
    by_cases h : key x < key y <;> simp [insertByKey, h, ih]
    tauto

theorem length_insertByKey (key : α → ℚ) (x : α) (l : List α) :
    (insertByKey key x l).length = l.length + 1 := by
  induction l with
  | nil => rfl
  | cons y ys ih =>
    by_cases h : key x < key y <;> simp [insertByKey, h, ih]

theorem length_sortByKey (key : α → ℚ) (l : List α) :
    (sortByKey key l).length = l.length := by
  induction l with
  | nil => rfl
  | cons x xs ih => simp [sortByKey, length_insertByKey, ih]

theorem pairwise_insertByKey (key : α → ℚ) (x : α) (l : List α)
    (h : l.Pairwise (fun a b => key b ≤ key a)) :
    (insertByKey key x l).Pairwise (fun a b => key b ≤ key a) := by
  induction l with
  | nil => simp [insertByKey]
  | cons y ys ih =>
    rcases List.pairwise_cons.mp h with ⟨hy, hys⟩
    by_cases hxy : key x < key y
    · simp only [insertByKey, if_pos hxy]
      refine List.pairwise_cons.mpr ⟨?_, ih hys⟩
      intro b hb
      rcases (mem_insertByKey key x ys b).mp hb with rfl | hb
      · exact le_of_lt hxy
      · exact hy b hb
    · simp only [insertByKey, if_neg hxy]
      refine List.pairwise_cons.mpr ⟨?_, h⟩
      intro b hb
      rcases List.mem_cons.mp hb with rfl | hb
      · exact not_lt.mp hxy
      · exact le_trans (hy b hb) (not_lt.mp hxy)

theorem pairwise_sortByKey (key : α → ℚ) (l : List α) :
    (sortByKey key l).Pairwise (fun a b => key b ≤ key a) := by
  induction l with
  | nil => simp [sortByKey]
  | cons x xs ih => exact pairwise_insertByKey key x _ ih

theorem filter_insertByKey (key : α → ℚ) (v : ℚ) (x : α) (l : List α) :
    (insertByKey key x l).filter (fun a => decide (key a = v)) =
      if key x = v then x :: l.filter (fun a => decide (key a = v))
      else l.filter (fun a => decide (key a = v)) := by
  induction l with
  | nil =>
    by_cases h : key x = v <;> simp [insertByKey, List.filter, h]
  | cons y ys ih =>
    by_cases hxy : key x < key y
    · simp only [insertByKey, if_pos hxy]
      by_cases hyv : key y = v
      · have hxv : ¬ key x = v := by
          intro hxv; rw [hxv, hyv] at hxy; exact lt_irrefl v hxy
        simp [List.filter_cons, hyv, hxv, ih]
      · by_cases hxv : key x = v <;> simp [List.filter_cons, hyv, hxv, ih]
    · simp only [insertByKey, if_neg hxy]
      by_cases hxv : key x = v <;> simp [List.filter_cons, hxv]

/-- Stability of `sortByKey`: within each class of equal keys the sorted
list keeps exactly the input order. -/
theorem filter_sortByKey (key : α → ℚ) (v : ℚ) (l : List α) :
    (sortByKey key l).filter (fun a => decide (key a = v)) =
      l.filter (fun a => decide (key a = v)) := by
  induction l with
  | nil => rfl
  | cons x xs ih =>
    by_cases hxv : key x = v <;>
      simp [sortByKey, filter_insertByKey, hxv, List.filter_cons, ih]

theorem perm_insertByKey (key : α → ℚ) (x : α) (l : List α) :
    List.Perm (insertByKey key x l) (x :: l) := by
  induction l with
  | nil => rfl
  | cons y ys ih =>
    by_cases h : key x < key y
    · simp only [insertByKey, if_pos h]
      exact (ih.cons y).trans (List.Perm.swap x y ys)
    · simp [insertByKey, if_neg h]

theorem perm_sortByKey (key : α → ℚ) (l : List α) :
    List.Perm (sortByKey key l) l := by
  induction l with
  | nil => rfl
  | cons x xs ih => exact (perm_insertByKey key x _).trans (ih.cons x)

namespace Scoring

/-- `Scoring.normalizeScore(value, min = 0, max = 10)`. -/
def normalizeScore (value : ℚ) (min : ℚ) (max : ℚ) : ℚ :=
  if max = min then 5 else ((value - min) / (max - min)) * 10

/-- `Scoring.calculateScore(option, criteria)`: the `forEach` accumulation
of `totalScore` and `maxPossible`, then the guarded normalisation. -/
def calculateScore (option : JsOption) (criteria : List Criterion) : ScoreData :=
  let acc := criteria.foldl
    (fun (acc : ℚ × ℚ) criterion =>
      let score := jsOr (option.scores criterion.id) 0
      let normalizedScore := normalizeScore score 0 10
      (acc.1 + (criterion.weight : ℚ) * normalizedScore,
       acc.2 + (criterion.weight : ℚ) * 10))
    (0, 0)
  { raw := acc.1
    max := acc.2
    normalized := if acc.2 > 0 then acc.1 / acc.2 * 10 else 0 }

theorem normalizeScore_zero_ten (s : ℚ) : normalizeScore s 0 10 = s := by
  unfold normalizeScore
  norm_num

theorem calculateScore_foldl (option : JsOption) (criteria : List Criterion)
    (a b : ℚ) :
    criteria.foldl
      (fun (acc : ℚ × ℚ) criterion =>
        let score := jsOr (option.scores criterion.id) 0
        let normalizedScore := normalizeScore score 0 10
        (acc.1 + (criterion.weight : ℚ) * normalizedScore,
         acc.2 + (criterion.weight : ℚ) * 10))
      (a, b) =
    (a + (criteria.map (fun c => (c.weight : ℚ) * jsOr (option.scores c.id) 0)).sum,
     b + (criteria.map (fun c => (c.weight : ℚ) * 10)).sum) := by
  induction criteria generalizing a b with
  | nil => simp
  | cons c cs ih =>
    rw [List.foldl_cons]
    have hstep :
        (let score := jsOr (option.scores c.id) 0
         let normalizedScore := normalizeScore score 0 10
         ((a : ℚ) + (c.weight : ℚ) * normalizedScore, b + (c.weight : ℚ) * 10)) =
        (a + (c.weight : ℚ) * jsOr (option.scores c.id) 0, b + (c.weight : ℚ) * 10) := by
      simp [normalizeScore_zero_ten]
    rw [hstep, ih]
    simp only [List.map_cons, List.sum_cons, Prod.mk.injEq]
    constructor <;> ring

/-- The budget section of `calculateConstraintPenalty`: starting from
`penaltyFactor = 1.0` and an empty violation list, apply the (single)
matching budget branch.  The `NaN` guards of the source correspond to the
`Option` matches, the `budgetLimit > 0` guard is explicit. -/
def budgetStep (option : JsOption) (cs : Constraints) : ℚ × List Violation :=
  match cs.budget, option.estimatedCost with
  | some budgetLimit, some optionCost =>
    if budgetLimit > 0 then
      let ratio := optionCost / budgetLimit
      if ratio > 3/2 then
        (1 * (1/2),
         [{ type := "budget", severity := "severe",
            message := toString (jsRound ((ratio - 1) * 100)) ++ "% over budget" }])
      else if ratio > 1 then
        (1 * max (7/10) (1 - (ratio - 1) * (6/10)),
         [{ type := "budget", severity := "moderate",
            message := toString (jsRound ((ratio - 1) * 100)) ++ "% over budget" }])
      else if ratio > 9/10 then
        (1 * (19/20),
         [{ type := "budget", severity := "minor",
            message := "Close to budget limit" }])
      else (1, [])
    else (1, [])
  | _, _ => (1, [])

/-- The compliance section of `calculateConstraintPenalty`, applied to the
state left by the budget section. -/
def complianceStep (option : JsOption) (st : ℚ × List Violation) : ℚ × List Violation :=
  match option.constraintCompliance with
  | some cc =>
    let complianceFactor := 7/10 + cc / 10 * (3/10)
    if cc < 5 then
      (st.1 * complianceFactor,
       st.2 ++ [{ type := "notes",
                  severity := if cc < 3 then "severe" else "moderate",
                  message := "Low constraint compliance from notes" }])
    else (st.1 * complianceFactor, st.2)
  | none => st

/-- `Scoring.calculateConstraintPenalty(option, constraints)`: soft budget
and compliance penalties, multiplied into a single factor, violations
appended budget-first. -/
def calculateConstraintPenalty (option : JsOption) (constraints : Option Constraints) :
    PenaltyData :=
  match constraints with
  | none => { factor := 1, violations := [] }
  | some cs =>
    let st := complianceStep option (budgetStep option cs)
    { factor := st.1, violations := st.2 }

/-- `Scoring.getCriteriaBreakdown(option, criteria)`. -/
def getCriteriaBreakdown (option : JsOption) (criteria : List Criterion) :
    List CriteriaScore :=
  criteria.map (fun criterion =>
    { criterionId := criterion.id
      criterionName := criterion.name
      weight := criterion.weight
      score := jsOr (option.scores criterion.id) 0
      weightedScore := jsOr (option.scores criterion.id) 0 * (criterion.weight : ℚ) })

/-- `Scoring.calculateConfidence(rankings)`. -/
def calculateConfidence (rankings : List RankedOption) : Confidence :=
  match rankings with
  | top :: second :: _ =>
    let topScore := top.totalScore
    let secondScore := second.totalScore
    let maxScore := top.maxPossible
    if maxScore = 0 then
      { level := "low", value := 1/2, label := "LOW", message := none }
    else
      let margin := (topScore - secondScore) / maxScore
      if margin < 3/100 then
        { level := "low", value := 2/5, label := "LOW",
          message := some "Options are extremely close. Consider additional criteria." }
      else if margin < 8/100 then
        { level := "medium", value := 3/5, label := "MEDIUM",
          message := some "Close competition. Small changes could shift the ranking." }
      else if margin < 15/100 then
        { level := "medium", value := 3/4, label := "MEDIUM",
          message := some "Clear leader, but second option is competitive." }
      else
        { level := "high", value := 9/10, label := "HIGH",
          message := some "Strong confidence in the recommendation." }
  | _ => { level := "high", value := 1, label := "HIGH", message := none }

/-- `Scoring.findStrengths(winner, rankings, criteria)`: criteria where the
winner beats the mean and scores at least 7, sorted (stably, descending) by
`advantage * weight`, top 3. -/
def findStrengths (winner : RankedOption) (rankings : List RankedOption)
    (criteria : List Criterion) : List StrengthEntry :=
  let strengths := criteria.filterMap (fun criterion =>
    let winnerScore := jsOr (winner.scores criterion.id) 0
    let avgScore := (rankings.map (fun r => jsOr (r.scores criterion.id) 0)).sum /
      (rankings.length : ℚ)
    if winnerScore > avgScore ∧ winnerScore ≥ 7 then
      some { id := criterion.id, name := criterion.name,
             score := winnerScore, advantage := winnerScore - avgScore }
    else none)
  (sortByKey (fun s =>
    s.advantage * (jsOrN ((criteria.find? (fun c => decide (c.id = s.id))).map Criterion.weight) 0 : ℚ))
    strengths).take 3

/-- `Scoring.findWeaknesses(winner, rankings, criteria)`: criteria where the
winner is below the maximum across options and scores at most 5, sorted
descending by deficit, top 2. -/
def findWeaknesses (winner : RankedOption) (rankings : List RankedOption)
    (criteria : List Criterion) : List WeaknessEntry :=
  let weaknesses := criteria.filterMap (fun criterion =>
    let winnerScore := jsOr (winner.scores criterion.id) 0
    match (rankings.map (fun r => jsOr (r.scores criterion.id) 0)).max? with
    | some maxScore =>
      if winnerScore < maxScore ∧ winnerScore ≤ 5 then
        some { id := criterion.id, name := criterion.name,
               score := winnerScore, deficit := maxScore - winnerScore }
      else none
    | none => none)
  (sortByKey WeaknessEntry.deficit weaknesses).take 2

/-- `Scoring.generateTradeoffs(rankings, criteria)`. -/
def generateTradeoffs (rankings : List RankedOption) (criteria : List Criterion) :
    List Tradeoff :=
  rankings.map (fun option =>
    { optionId := option.id
      optionName := option.name
      pros := (criteria.filter (fun c => decide (jsOr (option.scores c.id) 0 ≥ 8))).map Criterion.name
      cons := (criteria.filter (fun c =>
        decide (¬ jsOr (option.scores c.id) 0 ≥ 8) && decide (jsOr (option.scores c.id) 0 ≤ 4))).map Criterion.name })

/-- `Scoring.generateAnalysis(rankings, criteria, constraints)`.  The
`rationale` HTML string is built exactly as in the source. -/
def generateAnalysis (rankings : List RankedOption) (criteria : List Criterion) :
    Option Analysis :=
  match rankings with
  | [] => none
  | winner :: rest =>
    let runnerUp : Option RankedOption := rest.head?
    let strengths := findStrengths winner (winner :: rest) criteria
    let weaknesses := findWeaknesses winner (winner :: rest) criteria
    let r1 := "<strong>" ++ winner.name ++ "</strong> scores highest with " ++
      toFixed1 winner.normalizedScore ++ "/10"
    let r2 := if winner.constraintPenalty ≠ 0 ∧ winner.constraintPenalty < 1 then
        r1 ++ " (includes " ++ toString (jsRound ((1 - winner.constraintPenalty) * 100)) ++
          "% constraint penalty)"
      else r1
    let r3 := r2 ++ ". "
    let r4 := if strengths.length > 0 then
        r3 ++ "Key strengths include <strong>" ++
          String.intercalate "</strong> and <strong>" (strengths.map StrengthEntry.name) ++
          "</strong>. "
      else r3
    let r5 := match runnerUp with
      | some ru =>
        if winner.normalizedScore - ru.normalizedScore < 1/2 then
          r4 ++ "<strong>" ++ ru.name ++ "</strong> is very close behind (" ++
            toFixed1 ru.normalizedScore ++ "/10) and could be considered a safe fallback. "
        else
          r4 ++ ru.name ++ " follows at " ++ toFixed1 ru.normalizedScore ++ "/10. "
      | none => r4
    let r6 := if weaknesses.length > 0 then
        r5 ++ "Note: The winner scores lower on <strong>" ++
          String.intercalate "</strong> and <strong>" (weaknesses.map WeaknessEntry.name) ++
          "</strong> — consider if these matter more than weighted."
      else r5
    let constraintWarnings := (winner :: rest).flatMap (fun r =>
      (r.constraintViolations.filter (fun v =>
        decide (v.severity = "severe") || decide (v.severity = "moderate"))).map
        (fun v => r.name ++ ": " ++ v.message))
    some
      { winner := winner.name
        runnerUp := runnerUp.map RankedOption.name
        strengths := strengths
        weaknesses := weaknesses
        rationale := r6
        constraintWarnings := constraintWarnings
        tradeoffs := generateTradeoffs (winner :: rest) criteria }

/-- The per-option scoring map of `generateRankings`: the input option
spread together with its score, penalty and breakdown data (`rank` not
yet assigned). -/
def scoreOption (constraints : Option Constraints) (criteria : List Criterion)
    (option : JsOption) : RankedOption :=
  let scoreData := calculateScore option criteria
  let constraintData := calculateConstraintPenalty option constraints
  let adjustedScore := scoreData.normalized * constraintData.factor
  { id := option.id
    name := option.name
    scores := option.scores
    estimatedCost := option.estimatedCost
    constraintCompliance := option.constraintCompliance
    totalScore := scoreData.raw * constraintData.factor
    rawScore := scoreData.raw
    maxPossible := scoreData.max
    normalizedScore := adjustedScore
    rawNormalizedScore := scoreData.normalized
    constraintPenalty := constraintData.factor
    constraintViolations := constraintData.violations
    criteriaScores := getCriteriaBreakdown option criteria
    rank := 0 }

/-- The rank-assignment loop `scored.forEach((item, index) => item.rank =
index + 1)`, starting at index `i`. -/
def addRanksFrom (i : ℕ) : List RankedOption → List RankedOption
  | [] => []
  | r :: rs => { r with rank := i + 1 } :: addRanksFrom (i + 1) rs

/-- `Scoring.generateRankings(options, criteria, constraints = null)`. -/
def generateRankings (options : List JsOption) (criteria : List Criterion)
    (constraints : Option Constraints) : RankingResult :=
  if options.length = 0 ∨ criteria.length = 0 then
    { rankings := [], confidence := ConfValue.num 0, analysis := none }
  else
    let scored := options.map (scoreOption constraints criteria)
    let sorted := sortByKey RankedOption.totalScore scored
    let ranked := addRanksFrom 0 sorted
    { rankings := ranked
      confidence := ConfValue.conf (calculateConfidence ranked)
      analysis := generateAnalysis ranked criteria }

end Scoring

/-- C1.  `calculateScore(option, criteria)` returns `raw` equal to the sum
over the criteria of weight times the option's score for that criterion
(defaulting to `0` when absent), `max` equal to the sum of `weight * 10`,
and `normalized = raw / max * 10` when `max > 0` and `0` otherwise. -/
theorem C1_calculateScore_sums (option : JsOption) (criteria : List Criterion) :
    (Scoring.calculateScore option criteria).raw =
      (criteria.map (fun c => (c.weight : ℚ) * jsOr (option.scores c.id) 0)).sum ∧
    (Scoring.calculateScore option criteria).max =
      (criteria.map (fun c => (c.weight : ℚ) * 10)).sum ∧
    (Scoring.calculateScore option criteria).normalized =
      (if (criteria.map (fun c => (c.weight : ℚ) * 10)).sum > 0 then
        (criteria.map (fun c => (c.weight : ℚ) * jsOr (option.scores c.id) 0)).sum /
          (criteria.map (fun c => (c.weight : ℚ) * 10)).sum * 10
       else 0) := by
  unfold Scoring.calculateScore
  rw [Scoring.calculateScore_foldl]
  norm_num

/-- C3.  `calculateConstraintPenalty` always returns a factor in `(0, 1]`
(given a compliance value in `[0, 10]` when defined); cost `150` against
budget `100` (ratio `1.5`) yields exactly `max (0.7, 1 - 0.5 * 0.6) = 0.7`,
and cost `200` against budget `100` (ratio `2 > 1.5`) yields exactly `0.5`. -/
theorem C3_constraintPenalty_bounds :
    (∀ (option : JsOption) (constraints : Option Constraints),
      (∀ cc, option.constraintCompliance = some cc → 0 ≤ cc ∧ cc ≤ 10) →
      0 < (Scoring.calculateConstraintPenalty option constraints).factor ∧
        (Scoring.calculateConstraintPenalty option constraints).factor ≤ 1) ∧
    (∀ (option : JsOption) (cs : Constraints),
      option.estimatedCost = some 150 → option.constraintCompliance = none →
      cs.budget = some 100 →
      (Scoring.calculateConstraintPenalty option (some cs)).factor =
        max (7/10) (1 - (1/2) * (6/10))) ∧
    (∀ (option : JsOption) (cs : Constraints),
      option.estimatedCost = some 200 → option.constraintCompliance = none →
      cs.budget = some 100 →
      (Scoring.calculateConstraintPenalty option (some cs)).factor = 1/2) := by
  have hbudget : ∀ (option : JsOption) (cs : Constraints),
      0 < (Scoring.budgetStep option cs).1 ∧ (Scoring.budgetStep option cs).1 ≤ 1 := by
    intro option cs
    unfold Scoring.budgetStep
    match cs.budget, option.estimatedCost with
    | none, none => exact ⟨one_pos, le_refl 1⟩
    | none, some c => exact ⟨one_pos, le_refl 1⟩
    | some b, none => exact ⟨one_pos, le_refl 1⟩
    | some b, some c =>
      simp only
      by_cases hb : b > 0
      · simp only [if_pos hb]
        by_cases h15 : c / b > 3/2
        · simp only [if_pos h15]; norm_num
        · simp only [if_neg h15]
          by_cases h10 : c / b > 1
          · simp only [if_pos h10, one_mul]
            constructor
            · exact lt_of_lt_of_le (by norm_num) (le_max_left (7/10) _)
            · apply max_le
              · norm_num
              · have : 0 ≤ (c / b - 1) * (6/10) := by
                  apply mul_nonneg
                  · linarith
                  · norm_num
                linarith
          · simp only [if_neg h10]
            by_cases h09 : c / b > 9/10
            · simp only [if_pos h09]; norm_num
            · simp only [if_neg h09]; exact ⟨one_pos, le_refl 1⟩
      · simp only [if_neg hb]; exact ⟨one_pos, le_refl 1⟩
  refine ⟨?_, ?_, ?_⟩
  · intro option constraints hcc
    match constraints with
    | none => exact ⟨one_pos, le_refl 1⟩
    | some cs =>
      show 0 < (Scoring.complianceStep option (Scoring.budgetStep option cs)).1 ∧
        (Scoring.complianceStep option (Scoring.budgetStep option cs)).1 ≤ 1
      obtain ⟨hp, hle⟩ := hbudget option cs
      unfold Scoring.complianceStep
      match hcase : option.constraintCompliance with
      | none => exact ⟨hp, hle⟩
      | some cc =>
        obtain ⟨hcc0, hcc10⟩ := hcc cc hcase
        have hcf0 : (0:ℚ) < 7/10 + cc / 10 * (3/10) := by positivity
        have hcf1 : 7/10 + cc / 10 * (3/10) ≤ 1 := by
          have h1 : cc / 10 ≤ 1 := by
            rw [div_le_one (by norm_num : (0:ℚ) < 10)]; exact hcc10
          nlinarith
        have hgoal : 0 < (Scoring.budgetStep option cs).1 * (7/10 + cc / 10 * (3/10)) ∧
            (Scoring.budgetStep option cs).1 * (7/10 + cc / 10 * (3/10)) ≤ 1 :=
          ⟨mul_pos hp hcf0, by nlinarith⟩
        by_cases hlt : cc < 5
        · simpa only [if_pos hlt] using hgoal
        · simpa only [if_neg hlt] using hgoal
  · intro option cs hcost hcomp hbud
    show (Scoring.complianceStep option (Scoring.budgetStep option cs)).1 =
      max (7/10) (1 - (1/2) * (6/10))
    unfold Scoring.complianceStep Scoring.budgetStep
    rw [hcost, hcomp, hbud]
    norm_num
  · intro option cs hcost hcomp hbud
    show (Scoring.complianceStep option (Scoring.budgetStep option cs)).1 = 1/2
    unfold Scoring.complianceStep Scoring.budgetStep
    rw [hcost, hcomp, hbud]
    norm_num

/-- Witness for C3 at a concrete option and constraint set. -/
theorem C3_constraintPenalty_bounds_witness :
    0 < (Scoring.calculateConstraintPenalty
          { id := "a", name := "a", scores := fun _ => none,
            estimatedCost := some 150, constraintCompliance := some 8 }
          (some { budget := some 100, deadline := none, notes := none })).factor ∧
    (Scoring.calculateConstraintPenalty
          { id := "a", name := "a", scores := fun _ => none,
            estimatedCost := some 150, constraintCompliance := some 8 }
          (some { budget := some 100, deadline := none, notes := none })).factor ≤ 1 :=
  C3_constraintPenalty_bounds.1
    { id := "a", name := "a", scores := fun _ => none,
      estimatedCost := some 150, constraintCompliance := some 8 }
    (some { budget := some 100, deadline := none, notes := none })
    (fun cc h => by
      injection h with h'
      constructor <;> rw [← h'] <;> norm_num)

/-- A concrete ranked option with the given scalar fields, used to
instantiate theorems at specific inputs. -/
def mkRanked (id : String) (total maxp norm : ℚ) (css : List CriteriaScore) :
    RankedOption :=
  { id := id, name := id, scores := fun _ => none,
    estimatedCost := none, constraintCompliance := none,
    totalScore := total, rawScore := total, maxPossible := maxp,
    normalizedScore := norm, rawNormalizedScore := norm,
    constraintPenalty := 1, constraintViolations := [],
    criteriaScores := css, rank := 0 }

/-- C4.  `calculateConfidence` returns high/1.0 with fewer than two
rankings and low/0.5 when the top `maxPossible` is 0; otherwise, with
`margin = (top.totalScore - second.totalScore) / top.maxPossible`, the tier
boundaries are strict upper bounds — `margin < 0.03` gives low 0.4,
`margin < 0.08` medium 0.6, `margin < 0.15` medium 0.75 and otherwise
high 0.9 — so a margin of exactly 0.08 falls in the medium 0.75 tier. -/
theorem C4_confidence_tiers :
    (∀ rankings : List RankedOption, rankings.length < 2 →
      Scoring.calculateConfidence rankings =
        { level := "high", value := 1, label := "HIGH", message := none }) ∧
    (∀ (top second : RankedOption) (rest : List RankedOption),
      top.maxPossible = 0 →
      Scoring.calculateConfidence (top :: second :: rest) =
        { level := "low", value := 1/2, label := "LOW", message := none }) ∧
    (∀ (top second : RankedOption) (rest : List RankedOption),
      top.maxPossible ≠ 0 →
      ((top.totalScore - second.totalScore) / top.maxPossible < 3/100 →
        Scoring.calculateConfidence (top :: second :: rest) =
          { level := "low", value := 2/5, label := "LOW",
            message := some "Options are extremely close. Consider additional criteria." }) ∧
      (3/100 ≤ (top.totalScore - second.totalScore) / top.maxPossible →
       (top.totalScore - second.totalScore) / top.maxPossible < 8/100 →
        Scoring.calculateConfidence (top :: second :: rest) =
          { level := "medium", value := 3/5, label := "MEDIUM",
            message := some "Close competition. Small changes could shift the ranking." }) ∧
      (8/100 ≤ (top.totalScore - second.totalScore) / top.maxPossible →
       (top.totalScore - second.totalScore) / top.maxPossible < 15/100 →
        Scoring.calculateConfidence (top :: second :: rest) =
          { level := "medium", value := 3/4, label := "MEDIUM",
            message := some "Clear leader, but second option is competitive." }) ∧
      (15/100 ≤ (top.totalScore - second.totalScore) / top.maxPossible →
        Scoring.calculateConfidence (top :: second :: rest) =
          { level := "high", value := 9/10, label := "HIGH",
            message := some "Strong confidence in the recommendation." })) ∧
    (∀ (top second : RankedOption) (rest : List RankedOption),
      top.maxPossible ≠ 0 →
      (top.totalScore - second.totalScore) / top.maxPossible = 8/100 →
      (Scoring.calculateConfidence (top :: second :: rest)).level = "medium" ∧
      (Scoring.calculateConfidence (top :: second :: rest)).value = 3/4) := by
  refine ⟨?_, ?_, ?_, ?_⟩
  · intro rankings hlen
    match rankings with
    | [] => rfl
    | [_] => rfl
    | _ :: _ :: t => exact absurd hlen (by simp)
  · intro top second rest h0
    unfold Scoring.calculateConfidence
    simp only [if_pos h0]
  · intro top second rest hne
    have hm : ¬ top.maxPossible = 0 := hne
    refine ⟨?_, ?_, ?_, ?_⟩
    · intro h1
      unfold Scoring.calculateConfidence
      simp only [if_neg hm, if_pos h1]
    · intro h1 h2
      unfold Scoring.calculateConfidence
      simp only [if_neg hm, if_neg (not_lt.mpr h1), if_pos h2]
    · intro h1 h2
      unfold Scoring.calculateConfidence
      have h01 : ¬ (top.totalScore - second.totalScore) / top.maxPossible < 3/100 :=
        not_lt.mpr (le_trans (by norm_num) h1)
      simp only [if_neg hm, if_neg h01, if_neg (not_lt.mpr h1), if_pos h2]
    · intro h1
      unfold Scoring.calculateConfidence
      have h01 : ¬ (top.totalScore - second.totalScore) / top.maxPossible < 3/100 :=
        not_lt.mpr (le_trans (by norm_num) h1)
      have h02 : ¬ (top.totalScore - second.totalScore) / top.maxPossible < 8/100 :=
        not_lt.mpr (le_trans (by norm_num) h1)
      simp only [if_neg hm, if_neg h01, if_neg h02, if_neg (not_lt.mpr h1)]
  · intro top second rest hne hmargin
    have hm : ¬ top.maxPossible = 0 := hne
    have h1 : ¬ (top.totalScore - second.totalScore) / top.maxPossible < 3/100 := by
      rw [hmargin]; norm_num
    have h2 : ¬ (top.totalScore - second.totalScore) / top.maxPossible < 8/100 := by
      rw [hmargin]; norm_num
    have h3 : (top.totalScore - second.totalScore) / top.maxPossible < 15/100 := by
      rw [hmargin]; norm_num
    unfold Scoring.calculateConfidence
    simp only [if_neg hm, if_neg h1, if_neg h2, if_pos h3]
    exact ⟨trivial, trivial⟩

/-- Witness for C4: a margin of exactly 0.08 (total scores 108 and 100
against `maxPossible` 100) yields the medium 0.75 tier. -/
theorem C4_confidence_tiers_witness :
    (mkRanked "a" 108 100 10 []).maxPossible ≠ 0 ∧
    ((mkRanked "a" 108 100 10 []).totalScore - (mkRanked "b" 100 100 10 []).totalScore) /
        (mkRanked "a" 108 100 10 []).maxPossible = 8/100 ∧
    (Scoring.calculateConfidence [mkRanked "a" 108 100 10 [], mkRanked "b" 100 100 10 []]).level
      = "medium" ∧
    (Scoring.calculateConfidence [mkRanked "a" 108 100 10 [], mkRanked "b" 100 100 10 []]).value
      = 3/4 := by
  refine ⟨by norm_num [mkRanked], by norm_num [mkRanked], ?_⟩
  exact C4_confidence_tiers.2.2.2 (mkRanked "a" 108 100 10 []) (mkRanked "b" 100 100 10 [])
    [] (by norm_num [mkRanked]) (by norm_num [mkRanked])

/-- C5.  With an empty options list or an empty criteria list,
`generateRankings` returns exactly the defined empty result
`{rankings: [], confidence: 0, analysis: null}` (and, being a total
function of its inputs, raises no error). -/
theorem C5_generateRankings_empty (options : List JsOption) (criteria : List Criterion)
    (constraints : Option Constraints)
    (h : options.length = 0 ∨ criteria.length = 0) :
    Scoring.generateRankings options criteria constraints =
      { rankings := [], confidence := ConfValue.num 0, analysis := none } := by
  unfold Scoring.generateRankings
  simp only [if_pos h]

/-- Witness for C5 at a concrete empty options list. -/
theorem C5_generateRankings_empty_witness :
    Scoring.generateRankings [] [{ id := "a", name := "a", weight := 5 }] none =
      { rankings := [], confidence := ConfValue.num 0, analysis := none } :=
  C5_generateRankings_empty [] [{ id := "a", name := "a", weight := 5 }] none
    (Or.inl rfl)

/-- Forget the assigned rank (used to compare ranked output with the
pre-rank scored list when stating sort stability). -/
def stripRank (r : RankedOption) : RankedOption := { r with rank := 0 }

theorem addRanksFrom_map_rank (i : ℕ) (l : List RankedOption) :
    (Scoring.addRanksFrom i l).map RankedOption.rank = List.range' (i + 1) l.length := by
  induction l generalizing i with
  | nil => rfl
  | cons r rs ih =>
    simp only [Scoring.addRanksFrom, List.map_cons, List.length_cons, List.range'_succ]
    exact congrArg (List.cons (i + 1)) (ih (i + 1))

theorem mem_addRanksFrom_totalScore (i : ℕ) (l : List RankedOption) (x : RankedOption)
    (hx : x ∈ Scoring.addRanksFrom i l) : ∃ y ∈ l, x.totalScore = y.totalScore := by
  induction l generalizing i with
  | nil => cases hx
  | cons r rs ih =>
    rcases List.mem_cons.mp hx with rfl | hx
    · exact ⟨r, List.mem_cons_self r rs, rfl⟩
    · obtain ⟨y, hy, he⟩ := ih (i + 1) hx
      exact ⟨y, List.mem_cons_of_mem r hy, he⟩

theorem addRanksFrom_pairwise (i : ℕ) (l : List RankedOption)
    (h : l.Pairwise (fun a b => b.totalScore ≤ a.totalScore)) :
    (Scoring.addRanksFrom i l).Pairwise (fun a b => b.totalScore ≤ a.totalScore) := by
  induction l generalizing i with
  | nil => exact List.Pairwise.nil
  | cons r rs ih =>
    rcases List.pairwise_cons.mp h with ⟨hr, hrs⟩
    refine List.pairwise_cons.mpr ⟨?_, ih (i + 1) hrs⟩
    intro b hb
    obtain ⟨y, hy, he⟩ := mem_addRanksFrom_totalScore (i + 1) rs b hb
    show b.totalScore ≤ r.totalScore
    rw [he]
    exact hr y hy

theorem addRanksFrom_filter_strip (i : ℕ) (v : ℚ) (l : List RankedOption) :
    ((Scoring.addRanksFrom i l).filter (fun r => decide (r.totalScore = v))).map stripRank =
      (l.filter (fun r => decide (r.totalScore = v))).map stripRank := by
  induction l generalizing i with
  | nil => rfl
  | cons r rs ih =>
    have hts : ({ r with rank := i + 1 } : RankedOption).totalScore = r.totalScore := rfl
    have hsr : stripRank { r with rank := i + 1 } = stripRank r := rfl
    show ((({ r with rank := i + 1 } : RankedOption) :: Scoring.addRanksFrom (i + 1) rs).filter
        (fun x => decide (x.totalScore = v))).map stripRank =
      ((r :: rs).filter (fun x => decide (x.totalScore = v))).map stripRank
    rw [List.filter_cons, List.filter_cons]
    by_cases hv : r.totalScore = v
    · rw [hts, decide_eq_true hv, if_pos rfl, if_pos rfl]
      simp only [List.map_cons, hsr]
      exact congrArg (List.cons (stripRank r)) (ih (i + 1))
    · rw [hts, decide_eq_false hv, if_neg Bool.false_ne_true, if_neg Bool.false_ne_true]
      exact ih (i + 1)

theorem stripRank_eq_self (r : RankedOption) (h : r.rank = 0) : stripRank r = r := by
  cases r
  unfold stripRank
  simp only at h
  rw [h]

/-- C2.  For non-empty options and criteria, `generateRankings` sorts the
scored options descending by `totalScore` with a stable sort (each class of
equal `totalScore` keeps the input order of the scored list) and assigns
dense 1-based ranks: the ranks are exactly `1..n` and their sum is
`1 + 2 + ... + n`. -/
theorem C2_generateRankings_ranking (options : List JsOption) (criteria : List Criterion)
    (constraints : Option Constraints)
    (h1 : options.length ≠ 0) (h2 : criteria.length ≠ 0) :
    ((Scoring.generateRankings options criteria constraints).rankings).map RankedOption.rank =
      List.range' 1 options.length ∧
    (((Scoring.generateRankings options criteria constraints).rankings).map RankedOption.rank).sum =
      (List.range' 1 options.length).sum ∧
    ((Scoring.generateRankings options criteria constraints).rankings).Pairwise
      (fun a b => b.totalScore ≤ a.totalScore) ∧
    ∀ v : ℚ,
      (((Scoring.generateRankings options criteria constraints).rankings).filter
        (fun r => decide (r.totalScore = v))).map stripRank =
      (options.map (Scoring.scoreOption constraints criteria)).filter
        (fun r => decide (r.totalScore = v)) := by
  have hcond : ¬ (options.length = 0 ∨ criteria.length = 0) := by
    intro h
    rcases h with h | h
    · exact h1 h
    · exact h2 h
  have hrank : (Scoring.generateRankings options criteria constraints).rankings =
      Scoring.addRanksFrom 0
        (sortByKey RankedOption.totalScore (options.map (Scoring.scoreOption constraints criteria))) := by
    unfold Scoring.generateRankings
    rw [if_neg hcond]
  have hlen : (sortByKey RankedOption.totalScore
      (options.map (Scoring.scoreOption constraints criteria))).length = options.length := by
    rw [length_sortByKey, List.length_map]
  have hmap : ((Scoring.generateRankings options criteria constraints).rankings).map
      RankedOption.rank = List.range' 1 options.length := by
    rw [hrank, addRanksFrom_map_rank, hlen]
  refine ⟨hmap, congrArg List.sum hmap, ?_, ?_⟩
  · rw [hrank]
    exact addRanksFrom_pairwise 0 _ (pairwise_sortByKey RankedOption.totalScore _)
  · intro v
    rw [hrank, addRanksFrom_filter_strip]
    have hzero : ∀ x ∈ (sortByKey RankedOption.totalScore
        (options.map (Scoring.scoreOption constraints criteria))).filter
        (fun r => decide (r.totalScore = v)), stripRank x = x := by
      intro x hx
      have hx1 := List.mem_of_mem_filter hx
      have hx2 := (perm_sortByKey RankedOption.totalScore _).mem_iff.mp hx1
      obtain ⟨o, _, ho⟩ := List.mem_map.mp hx2
      apply stripRank_eq_self
      rw [← ho]
      rfl
    calc ((sortByKey RankedOption.totalScore
            (options.map (Scoring.scoreOption constraints criteria))).filter
            (fun r => decide (r.totalScore = v))).map stripRank
        = ((sortByKey RankedOption.totalScore
            (options.map (Scoring.scoreOption constraints criteria))).filter
            (fun r => decide (r.totalScore = v))).map id := List.map_congr_left hzero
      _ = (sortByKey RankedOption.totalScore
            (options.map (Scoring.scoreOption constraints criteria))).filter
            (fun r => decide (r.totalScore = v)) := List.map_id _
      _ = (options.map (Scoring.scoreOption constraints criteria)).filter
            (fun r => decide (r.totalScore = v)) :=
          filter_sortByKey RankedOption.totalScore v _

/-- Witness for C2 at a concrete two-option, one-criterion input. -/
theorem C2_generateRankings_ranking_witness :
    ((Scoring.generateRankings
        [{ id := "a", name := "a", scores := fun _ => some 3,
           estimatedCost := none, constraintCompliance := none },
         { id := "b", name := "b", scores := fun _ => some 9,
           estimatedCost := none, constraintCompliance := none }]
        [{ id := "c", name := "c", weight := 5 }] none).rankings).map RankedOption.rank =
      List.range' 1 2 :=
  (C2_generateRankings_ranking
    [{ id := "a", name := "a", scores := fun _ => some 3,
       estimatedCost := none, constraintCompliance := none },
     { id := "b", name := "b", scores := fun _ => some 9,
       estimatedCost := none, constraintCompliance := none }]
    [{ id := "c", name := "c", weight := 5 }] none
    (by norm_num) (by norm_num)).1

/-- A per-option-per-criterion score range for the Monte Carlo simulation
(`min`/`max` are `none` when the corresponding property is `undefined`). -/
structure ScoreRange where
  min : Option ℚ
  max : Option ℚ

/-- A per-option result entry of `MonteCarlo.runSimulation`. -/
structure MCEntry where
  id : String
  name : String
  wins : ℕ
  percentage : String
deriving DecidableEq

/-- Result record of `MonteCarlo.runSimulation`. -/
structure MCResult where
  results : List MCEntry
  simulations : ℕ
  mostLikely : Option MCEntry

namespace MonteCarlo

/-- `MonteCarlo.simulations = 1000`. -/
def simulations : ℕ := 1000

/-- `MonteCarlo.randomInRange(min, max)` with the `Math.random()` output
`u` made explicit: `Math.round(min + u * (max - min))`. -/
def randomInRange (min max u : ℚ) : ℤ := jsRound (min + u * (max - min))

/-- The per-option-per-criterion simulated score of `runSimulation`: when a
range with both bounds defined is supplied, draw `randomInRange`; otherwise
fall back to `option.scores[c.id] || 5`. -/
def simulateScore (option : JsOption) (cid : String) (range : Option ScoreRange)
    (u : ℚ) : ℚ :=
  match range with
  | some rg =>
    match rg.min, rg.max with
    | some mn, some mx => (randomInRange mn mx u : ℚ)
    | _, _ => jsOr (option.scores cid) 5
  | none => jsOr (option.scores cid) 5

/-- One trial's `simulatedOptions`: every option with its scores object
rebuilt criterion by criterion (`rand` gives the `Math.random()` value for
the given option index and criterion index of this trial). -/
def trialOptions (options : List JsOption) (criteria : List Criterion)
    (scoreRanges : String → String → Option ScoreRange) (rand : ℕ → ℕ → ℚ) :
    List JsOption :=
  options.enum.map (fun p =>
    { p.2 with
      scores := criteria.enum.foldl
        (fun acc q => Function.update acc q.2.id
          (some (simulateScore p.2 q.2.id (scoreRanges p.2.id q.2.id) (rand p.1 q.1))))
        (fun _ => none) })

/-- `MonteCarlo.runSimulation(options, criteria, scoreRanges = {})`, with
the random source explicit (`rand trial optionIdx criterionIdx` is the
`Math.random()` value consumed at that point).  The `wins` counter object
is a map from option id to count. -/
def runSimulation (options : List JsOption) (criteria : List Criterion)
    (scoreRanges : String → String → Option ScoreRange)
    (rand : ℕ → ℕ → ℕ → ℚ) : MCResult :=
  let wins0 : String → ℕ := options.foldl (fun w o => Function.update w o.id 0) (fun _ => 0)
  let wins := (List.range simulations).foldl
    (fun w i =>
      match (Scoring.generateRankings (trialOptions options criteria scoreRanges (rand i))
          criteria none).rankings.head? with
      | some top => Function.update w top.id (w top.id + 1)
      | none => w)
    wins0
  let results := sortByKey (fun e => (e.wins : ℚ))
    (options.map (fun o =>
      { id := o.id, name := o.name, wins := wins o.id,
        percentage := toFixed1 ((wins o.id : ℚ) / (simulations : ℚ) * 100) }))
  { results := results, simulations := simulations, mostLikely := results.head? }

end MonteCarlo

theorem generateRankings_single (opt : JsOption) (criteria : List Criterion)
    (h : criteria.length ≠ 0) :
    (Scoring.generateRankings [opt] criteria none).rankings =
      [{ Scoring.scoreOption none criteria opt with rank := 1 }] := by
  unfold Scoring.generateRankings
  rw [if_neg]
  · rfl
  · intro hc
    rcases hc with hc | hc
    · exact absurd hc (by simp)
    · exact h hc

theorem foldl_bump_const {k : String} (step : (String → ℕ) → ℕ → (String → ℕ))
    (hstep : ∀ w i, step w i = Function.update w k (w k + 1)) :
    ∀ (l : List ℕ) (w : String → ℕ), (l.foldl step w) k = w k + l.length := by
  intro l
  induction l with
  | nil => intro w; rfl
  | cons i t ih =>
    intro w
    rw [List.foldl_cons, ih, hstep, Function.update_same, List.length_cons]
    ring

/-- C7.  With exactly one option and non-empty criteria, `runSimulation`
reports `mostLikely.percentage == "100.0"` for every supplied score-range
table and every outcome of the random source. -/
theorem C7_montecarlo_single_option (o : JsOption) (criteria : List Criterion)
    (scoreRanges : String → String → Option ScoreRange) (rand : ℕ → ℕ → ℕ → ℚ)
    (h : criteria.length ≠ 0) :
    ((MonteCarlo.runSimulation [o] criteria scoreRanges rand).mostLikely).map
      MCEntry.percentage = some "100.0" := by
  have hstep : ∀ (w : String → ℕ) (i : ℕ),
      (match (Scoring.generateRankings
          (MonteCarlo.trialOptions [o] criteria scoreRanges (rand i)) criteria
          none).rankings.head? with
      | some top => Function.update w top.id (w top.id + 1)
      | none => w) = Function.update w o.id (w o.id + 1) := by
    intro w i
    have hto : MonteCarlo.trialOptions [o] criteria scoreRanges (rand i) =
        [{ o with
            scores := criteria.enum.foldl
              (fun acc q => Function.update acc q.2.id
                (some (MonteCarlo.simulateScore o q.2.id (scoreRanges o.id q.2.id)
                  (rand i 0 q.1))))
              (fun _ => none) }] := rfl
    rw [hto, generateRankings_single _ criteria h]
    rfl
  have hwins : ((List.range MonteCarlo.simulations).foldl
      (fun w i =>
        match (Scoring.generateRankings
            (MonteCarlo.trialOptions [o] criteria scoreRanges (rand i)) criteria
            none).rankings.head? with
        | some top => Function.update w top.id (w top.id + 1)
        | none => w)
      ([o].foldl (fun w oo => Function.update w oo.id 0) (fun _ => 0))) o.id =
      MonteCarlo.simulations := by
    rw [foldl_bump_const _ (fun w i => hstep w i)]
    simp [Function.update_same]
  show (sortByKey (fun e => (e.wins : ℚ)) ([o].map (fun oo =>
      { id := oo.id, name := oo.name,
        wins := ((List.range MonteCarlo.simulations).foldl
          (fun w i =>
            match (Scoring.generateRankings
                (MonteCarlo.trialOptions [o] criteria scoreRanges (rand i)) criteria
                none).rankings.head? with
            | some top => Function.update w top.id (w top.id + 1)
            | none => w)
          ([o].foldl (fun w oo => Function.update w oo.id 0) (fun _ => 0))) oo.id,
        percentage := toFixed1
          ((((List.range MonteCarlo.simulations).foldl
            (fun w i =>
              match (Scoring.generateRankings
                  (MonteCarlo.trialOptions [o] criteria scoreRanges (rand i)) criteria
                  none).rankings.head? with
              | some top => Function.update w top.id (w top.id + 1)
              | none => w)
            ([o].foldl (fun w oo => Function.update w oo.id 0) (fun _ => 0))) oo.id : ℚ) /
            (MonteCarlo.simulations : ℚ) * 100) }))).head?.map MCEntry.percentage =
      some "100.0"
  rw [List.map_singleton]
  show some (toFixed1
      ((((List.range MonteCarlo.simulations).foldl _
        ([o].foldl (fun w oo => Function.update w oo.id 0) (fun _ => 0))) o.id : ℚ) /
        (MonteCarlo.simulations : ℚ) * 100)) = some "100.0"
  rw [hwins]
  norm_num [MonteCarlo.simulations, toFixed1]
  rfl

/-- Witness for C7 at a concrete single option, one criterion, no ranges
and the constant-zero random source. -/
theorem C7_montecarlo_single_option_witness :
    ((MonteCarlo.runSimulation
        [{ id := "a", name := "a", scores := fun _ => some 7,
           estimatedCost := none, constraintCompliance := none }]
        [{ id := "c", name := "c", weight := 5 }]
        (fun _ _ => none) (fun _ _ _ => 0)).mostLikely).map MCEntry.percentage =
      some "100.0" :=
  C7_montecarlo_single_option
    { id := "a", name := "a", scores := fun _ => some 7,
      estimatedCost := none, constraintCompliance := none }
    [{ id := "c", name := "c", weight := 5 }]
    (fun _ _ => none) (fun _ _ _ => 0) (by norm_num)

/-- A concrete option recording the score `0` for criterion `"c"`. -/
def zeroScoreOption : JsOption :=
  { id := "a", name := "a",
    scores := fun k => if k = "c" then some 0 else none,
    estimatedCost := none, constraintCompliance := none }

/-- C8 counterexample: with no range supplied, an option whose recorded
score for the criterion is `0` (present, not absent) still draws the
fallback `5` — the `|| 5` fallback also fires on the falsy recorded score
`0`, so the fallback is not restricted to absent scores. -/
theorem C8_counterexample_zero_score :
    zeroScoreOption.scores "c" = some 0 ∧
    MonteCarlo.simulateScore zeroScoreOption "c" none 0 = 5 ∧
    (5 : ℚ) ≠ 0 := by
  refine ⟨by norm_num [zeroScoreOption], ?_, by norm_num⟩
  show jsOr (zeroScoreOption.scores "c") 5 = 5
  norm_num [zeroScoreOption, jsOr]

/-- C8 (amended).  In every Monte Carlo trial, for every option and
criterion: when a `{min, max}` range with integer bounds `min ≤ max` is
supplied and the uniform draw `u` lies in `[0, 1)`, the simulated score is
an integer in the inclusive range `[min, max]`; with no range supplied the
simulated score equals the option's recorded score when that score is
present and non-zero, and falls back to `5` when the score is absent or
equal to `0` (the JS falsy default). -/
theorem C8_simulated_score_amended :
    (∀ (o : JsOption) (cid : String) (a b : ℤ) (u : ℚ),
      a ≤ b → 0 ≤ u → u < 1 →
      ∃ k : ℤ,
        MonteCarlo.simulateScore o cid
          (some { min := some (a : ℚ), max := some (b : ℚ) }) u = (k : ℚ) ∧
        a ≤ k ∧ k ≤ b) ∧
    (∀ (o : JsOption) (cid : String) (u v : ℚ),
      o.scores cid = some v → v ≠ 0 →
      MonteCarlo.simulateScore o cid none u = v) ∧
    (∀ (o : JsOption) (cid : String) (u : ℚ),
      o.scores cid = none → MonteCarlo.simulateScore o cid none u = 5) ∧
    (∀ (o : JsOption) (cid : String) (u : ℚ),
      o.scores cid = some 0 → MonteCarlo.simulateScore o cid none u = 5) := by
  refine ⟨?_, ?_, ?_, ?_⟩
  · intro o cid a b u hab hu0 hu1
    refine ⟨MonteCarlo.randomInRange (a : ℚ) (b : ℚ) u, rfl, ?_, ?_⟩
    · unfold MonteCarlo.randomInRange jsRound
      rw [Int.le_floor]
      have hba : (0 : ℚ) ≤ (b : ℚ) - (a : ℚ) := by
        rw [sub_nonneg]
        exact_mod_cast hab
      nlinarith
    · unfold MonteCarlo.randomInRange jsRound
      have hlt : (a : ℚ) + u * ((b : ℚ) - (a : ℚ)) + 1/2 < (b : ℚ) + 1 := by
        have hba : (0 : ℚ) ≤ (b : ℚ) - (a : ℚ) := by
          rw [sub_nonneg]
          exact_mod_cast hab
        nlinarith
      have hcast : ((b + 1 : ℤ) : ℚ) = (b : ℚ) + 1 := by push_cast; ring
      have hfl : ⌊(a : ℚ) + u * ((b : ℚ) - (a : ℚ)) + 1/2⌋ < b + 1 :=
        Int.floor_lt.mpr (by rw [hcast]; exact hlt)
      omega
  · intro o cid u v hv hv0
    show jsOr (o.scores cid) 5 = v
    rw [hv]
    unfold jsOr
    simp only [if_neg hv0]
  · intro o cid u hv
    show jsOr (o.scores cid) 5 = 5
    rw [hv]
    rfl
  · intro o cid u hv
    show jsOr (o.scores cid) 5 = 5
    rw [hv]
    unfold jsOr
    norm_num

/-- Witness for the amended C8 at range `[1, 3]` with draw `u = 1/2`. -/
theorem C8_simulated_score_amended_witness :
    ∃ k : ℤ,
      MonteCarlo.simulateScore zeroScoreOption "c"
        (some { min := some ((1 : ℤ) : ℚ), max := some ((3 : ℤ) : ℚ) }) (1/2) = (k : ℚ) ∧
      (1 : ℤ) ≤ k ∧ k ≤ 3 :=
  C8_simulated_score_amended.1 zeroScoreOption "c" 1 3 (1/2)
    (by norm_num) (by norm_num) (by norm_num)

/-- The candidate weights of the decreasing sensitivity scan:
`[k, k-1, ..., 1]` (the JS loop `for (w = k; w >= 1; w--)`). -/
def downFrom : ℕ → List ℕ
  | 0 => []
  | k + 1 => (k + 1) :: downFrom k

/-- One per-criterion tipping-point entry of `SensitivityAnalysis.analyze`. -/
structure TippingPoint where
  criterionId : String
  criterionName : String
  currentWeight : ℕ
  winnerScore : ℚ
  runnerUpScore : ℚ
  scoreDiff : ℚ
  tippingWeight : Option ℕ
  direction : Option String
  isSensitive : Bool
deriving DecidableEq

/-- Result record of `SensitivityAnalysis.analyze`. -/
structure SensResult where
  winner : RankedOption
  runnerUp : RankedOption
  gapToRunnerUp : ℚ
  robustness : ℚ
  tippingPoints : List TippingPoint
  sensitiveCriteria : List TippingPoint
  isRobust : Bool

namespace SensitivityAnalysis

/-- The per-criterion score lookup of `analyze`:
`ranked.criteriaScores.find(cs => cs.criterionId === cid)?.score || 5`. -/
def lookupCS (r : RankedOption) (cid : String) : ℚ :=
  jsOr ((r.criteriaScores.find? (fun cs => decide (cs.criterionId = cid))).map
    CriteriaScore.score) 5

/-- `SensitivityAnalysis.simulateWithWeight(rankings, criteria, criterionId,
newWeight)`: re-run the ranking engine on fresh copies of the criteria (one
weight swapped) and on options rebuilt from the criteria-score breakdowns.
The rebuilt option objects carry only `id`, `name` and `scores`, so their
`estimatedCost` and `constraintCompliance` are `undefined` (`none`), and
`generateRankings` is called without constraints. -/
def simulateWithWeight (rankings : List RankedOption) (criteria : List Criterion)
    (criterionId : String) (newWeight : ℕ) : List RankedOption :=
  let modifiedCriteria := criteria.map (fun c =>
    if c.id = criterionId then { c with weight := newWeight } else c)
  let options := rankings.map (fun r =>
    { id := r.id, name := r.name,
      scores := r.criteriaScores.foldl
        (fun acc cs => Function.update acc cs.criterionId (some cs.score))
        (fun _ => none),
      estimatedCost := none, constraintCompliance := none })
  (Scoring.generateRankings options modifiedCriteria none).rankings

/-- The loop-body test of the sensitivity scan: does the re-simulated top
option differ from the original winner?  (`newRankings[0].id !== winner.id`;
the rankings produced inside `analyze` are never empty, so the `none` arm
is unreachable there.) -/
def topChanged (rankings : List RankedOption) (criteria : List Criterion)
    (criterionId : String) (winnerId : String) (w : ℕ) : Bool :=
  match (simulateWithWeight rankings criteria criterionId w).head? with
  | some top => decide (top.id ≠ winnerId)
  | none => true

/-- The per-criterion tipping-point computation of `analyze`: compare the
winner's and runner-up's looked-up scores, then scan weights downward
(`currentWeight-1` to `1`) when the winner is favoured, upward
(`currentWeight+1` to `10`) when it is not, stopping at the first weight
that changes the re-simulated top option. -/
def tpForCriterion (rankings : List RankedOption) (criteria : List Criterion)
    (winner runnerUp : RankedOption) (c : Criterion) : TippingPoint :=
  let winnerScore := lookupCS winner c.id
  let runnerUpScore := lookupCS runnerUp c.id
  let scoreDiff := winnerScore - runnerUpScore
  let currentWeight := c.weight
  let scan : Option (ℕ × String) :=
    if scoreDiff > 0 then
      ((downFrom (currentWeight - 1)).find?
        (topChanged rankings criteria c.id winner.id)).map (fun w => (w, "decrease"))
    else if scoreDiff < 0 then
      ((List.range' (currentWeight + 1) (10 - currentWeight)).find?
        (topChanged rankings criteria c.id winner.id)).map (fun w => (w, "increase"))
    else none
  { criterionId := c.id
    criterionName := c.name
    currentWeight := currentWeight
    winnerScore := winnerScore
    runnerUpScore := runnerUpScore
    scoreDiff := scoreDiff
    tippingWeight := scan.map Prod.fst
    direction := scan.map Prod.snd
    isSensitive :=
      match scan with
      | some p => decide (((p.1 : ℤ) - (currentWeight : ℤ)).natAbs ≤ 3)
      | none => false }

/-- `SensitivityAnalysis.analyze(rankings, criteria, options)` (the
`options` argument is accepted but unused, as in the source). -/
def analyze (rankings : List RankedOption) (criteria : List Criterion)
    (options : List JsOption) : Option SensResult :=
  match rankings with
  | winner :: runnerUp :: rest =>
    let gapToRunnerUp := winner.normalizedScore - runnerUp.normalizedScore
    let tippingPoints := criteria.map
      (tpForCriterion (winner :: runnerUp :: rest) criteria winner runnerUp)
    let sensitiveCriteria := tippingPoints.filter (fun tp => tp.isSensitive)
    let robustness :=
      max 0 (100 - (sensitiveCriteria.length : ℚ) * 20 -
        (if gapToRunnerUp < 1/2 then 20 else 0))
    some
      { winner := winner
        runnerUp := runnerUp
        gapToRunnerUp := gapToRunnerUp
        robustness := robustness
        tippingPoints := tippingPoints
        sensitiveCriteria := sensitiveCriteria
        isRobust := decide (robustness ≥ 60) }
  | _ => none

end SensitivityAnalysis

theorem mem_downFrom (k w : ℕ) : w ∈ downFrom k ↔ 1 ≤ w ∧ w ≤ k := by
  induction k with
  | zero =>
    simp only [downFrom, List.not_mem_nil, false_iff]
    omega
  | succ n ih =>
    simp only [downFrom, List.mem_cons, ih]
    omega

theorem find?_downFrom_some (p : ℕ → Bool) (k t : ℕ)
    (h : (downFrom k).find? p = some t) :
    p t = true ∧ 1 ≤ t ∧ t ≤ k ∧ ∀ w, t < w → w ≤ k → p w = false := by
  induction k with
  | zero => cases h
  | succ n ih =>
    rw [downFrom] at h
    by_cases hp : p (n + 1) = true
    · rw [List.find?_cons_of_pos _ hp] at h
      injection h with h
      subst h
      exact ⟨hp, by omega, le_refl _, fun w hw1 hw2 => absurd hw2 (by omega)⟩
    · rw [List.find?_cons_of_neg _ hp] at h
      obtain ⟨h1, h2, h3, h4⟩ := ih h
      refine ⟨h1, h2, by omega, ?_⟩
      intro w hw1 hw2
      rcases Nat.lt_or_ge w (n + 1) with hlt | hge
      · exact h4 w hw1 (by omega)
      · have hw : w = n + 1 := by omega
        subst hw
        exact Bool.eq_false_iff.mpr hp

theorem find?_downFrom_none (p : ℕ → Bool) (k : ℕ)
    (h : (downFrom k).find? p = none) :
    ∀ w, 1 ≤ w → w ≤ k → p w = false := by
  intro w h1 h2
  exact Bool.eq_false_iff.mpr
    (List.find?_eq_none.mp h w ((mem_downFrom k w).mpr ⟨h1, h2⟩))

theorem find?_range'_some (p : ℕ → Bool) (n : ℕ) :
    ∀ (s t : ℕ), (List.range' s n).find? p = some t →
    p t = true ∧ s ≤ t ∧ t < s + n ∧ ∀ w, s ≤ w → w < t → p w = false := by
  induction n with
  | zero => intro s t h; cases h
  | succ m ih =>
    intro s t h
    rw [List.range'_succ] at h
    by_cases hp : p s = true
    · rw [List.find?_cons_of_pos _ hp] at h
      injection h with h
      subst h
      exact ⟨hp, le_refl _, by omega, fun w hw1 hw2 => absurd hw2 (by omega)⟩
    · rw [List.find?_cons_of_neg _ hp] at h
      obtain ⟨h1, h2, h3, h4⟩ := ih (s + 1) t h
      refine ⟨h1, by omega, by omega, ?_⟩
      intro w hw1 hw2
      rcases Nat.lt_or_ge w (s + 1) with hlt | hge
      · have hw : w = s := by omega
        subst hw
        exact Bool.eq_false_iff.mpr hp
      · exact h4 w hge hw2

theorem find?_range'_none (p : ℕ → Bool) (s n : ℕ)
    (h : (List.range' s n).find? p = none) :
    ∀ w, s ≤ w → w < s + n → p w = false := by
  intro w h1 h2
  exact Bool.eq_false_iff.mpr
    (List.find?_eq_none.mp h w (List.mem_range'_1.mpr ⟨h1, h2⟩))

theorem tpForCriterion_spec (rankings : List RankedOption) (criteria : List Criterion)
    (winner runnerUp : RankedOption) (c : Criterion) :
    (0 < (SensitivityAnalysis.tpForCriterion rankings criteria winner runnerUp c).scoreDiff →
      (((SensitivityAnalysis.tpForCriterion rankings criteria winner runnerUp c).tippingWeight = none ∧
        (SensitivityAnalysis.tpForCriterion rankings criteria winner runnerUp c).direction = none ∧
        ∀ v, 1 ≤ v → v < c.weight →
          SensitivityAnalysis.topChanged rankings criteria c.id winner.id v = false) ∨
       (∃ t, (SensitivityAnalysis.tpForCriterion rankings criteria winner runnerUp c).tippingWeight = some t ∧
        (SensitivityAnalysis.tpForCriterion rankings criteria winner runnerUp c).direction = some "decrease" ∧
        1 ≤ t ∧ t < c.weight ∧
        SensitivityAnalysis.topChanged rankings criteria c.id winner.id t = true ∧
        ∀ v, t < v → v < c.weight →
          SensitivityAnalysis.topChanged rankings criteria c.id winner.id v = false))) ∧
    ((SensitivityAnalysis.tpForCriterion rankings criteria winner runnerUp c).scoreDiff < 0 →
      (((SensitivityAnalysis.tpForCriterion rankings criteria winner runnerUp c).tippingWeight = none ∧
        (SensitivityAnalysis.tpForCriterion rankings criteria winner runnerUp c).direction = none ∧
        ∀ v, c.weight < v → v ≤ 10 →
          SensitivityAnalysis.topChanged rankings criteria c.id winner.id v = false) ∨
       (∃ t, (SensitivityAnalysis.tpForCriterion rankings criteria winner runnerUp c).tippingWeight = some t ∧
        (SensitivityAnalysis.tpForCriterion rankings criteria winner runnerUp c).direction = some "increase" ∧
        c.weight < t ∧ t ≤ 10 ∧
        SensitivityAnalysis.topChanged rankings criteria c.id winner.id t = true ∧
        ∀ v, c.weight < v → v < t →
          SensitivityAnalysis.topChanged rankings criteria c.id winner.id v = false))) ∧
    ((SensitivityAnalysis.tpForCriterion rankings criteria winner runnerUp c).scoreDiff = 0 →
      (SensitivityAnalysis.tpForCriterion rankings criteria winner runnerUp c).tippingWeight = none ∧
      (SensitivityAnalysis.tpForCriterion rankings criteria winner runnerUp c).direction = none) := by
  have hsd : (SensitivityAnalysis.tpForCriterion rankings criteria winner runnerUp c).scoreDiff =
      SensitivityAnalysis.lookupCS winner c.id - SensitivityAnalysis.lookupCS runnerUp c.id := rfl
  by_cases hpos : SensitivityAnalysis.lookupCS winner c.id -
      SensitivityAnalysis.lookupCS runnerUp c.id > 0
  · have hscan : (SensitivityAnalysis.tpForCriterion rankings criteria winner runnerUp c).tippingWeight =
        (((downFrom (c.weight - 1)).find?
          (SensitivityAnalysis.topChanged rankings criteria c.id winner.id)).map
          (fun p => (p, "decrease"))).map Prod.fst ∧
        (SensitivityAnalysis.tpForCriterion rankings criteria winner runnerUp c).direction =
        (((downFrom (c.weight - 1)).find?
          (SensitivityAnalysis.topChanged rankings criteria c.id winner.id)).map
          (fun p => (p, "decrease"))).map Prod.snd := by
      unfold SensitivityAnalysis.tpForCriterion
      simp only [if_pos hpos]
      exact ⟨by trivial, by trivial⟩
    refine ⟨?_, ?_, ?_⟩
    · intro _
      match hfind : (downFrom (c.weight - 1)).find?
          (SensitivityAnalysis.topChanged rankings criteria c.id winner.id) with
      | none =>
        left
        rw [hscan.1, hscan.2, hfind]
        refine ⟨by trivial, by trivial, ?_⟩
        intro v hv1 hv2
        exact find?_downFrom_none _ _ hfind v hv1 (by omega)
      | some t =>
        right
        obtain ⟨h1, h2, h3, h4⟩ := find?_downFrom_some _ _ _ hfind
        refine ⟨t, ?_, ?_, h2, by omega, h1, ?_⟩
        · rw [hscan.1, hfind]; rfl
        · rw [hscan.2, hfind]; rfl
        · intro v hv1 hv2
          exact h4 v hv1 (by omega)
    · intro hneg
      rw [hsd] at hneg
      exact absurd hpos (not_lt.mpr (le_of_lt hneg))
    · intro hzero
      rw [hsd] at hzero
      exact absurd hpos (by rw [hzero]; exact lt_irrefl 0)
  · by_cases hneg : SensitivityAnalysis.lookupCS winner c.id -
        SensitivityAnalysis.lookupCS runnerUp c.id < 0
    · have hscan : (SensitivityAnalysis.tpForCriterion rankings criteria winner runnerUp c).tippingWeight =
          (((List.range' (c.weight + 1) (10 - c.weight)).find?
            (SensitivityAnalysis.topChanged rankings criteria c.id winner.id)).map
            (fun p => (p, "increase"))).map Prod.fst ∧
          (SensitivityAnalysis.tpForCriterion rankings criteria winner runnerUp c).direction =
          (((List.range' (c.weight + 1) (10 - c.weight)).find?
            (SensitivityAnalysis.topChanged rankings criteria c.id winner.id)).map
            (fun p => (p, "increase"))).map Prod.snd := by
        unfold SensitivityAnalysis.tpForCriterion
        simp only [if_neg hpos, if_pos hneg]
        exact ⟨by trivial, by trivial⟩
      refine ⟨?_, ?_, ?_⟩
      · intro hp
        rw [hsd] at hp
        exact absurd hp (not_lt.mpr (le_of_lt hneg))
      · intro _
        match hfind : (List.range' (c.weight + 1) (10 - c.weight)).find?
            (SensitivityAnalysis.topChanged rankings criteria c.id winner.id) with
        | none =>
          left
          rw [hscan.1, hscan.2, hfind]
          refine ⟨by trivial, by trivial, ?_⟩
          intro v hv1 hv2
          exact find?_range'_none _ _ _ hfind v (by omega) (by omega)
        | some t =>
          right
          obtain ⟨h1, h2, h3, h4⟩ := find?_range'_some _ _ _ _ hfind
          refine ⟨t, ?_, ?_, by omega, by omega, h1, ?_⟩
          · rw [hscan.1, hfind]; rfl
          · rw [hscan.2, hfind]; rfl
          · intro v hv1 hv2
            exact h4 v (by omega) hv2
      · intro hzero
        rw [hsd] at hzero
        exact absurd hneg (by rw [hzero]; exact lt_irrefl 0)
    · have hzero : SensitivityAnalysis.lookupCS winner c.id -
          SensitivityAnalysis.lookupCS runnerUp c.id = 0 := le_antisymm (not_lt.mp hpos) (not_lt.mp hneg)
      have hscan : (SensitivityAnalysis.tpForCriterion rankings criteria winner runnerUp c).tippingWeight = none ∧
          (SensitivityAnalysis.tpForCriterion rankings criteria winner runnerUp c).direction = none := by
        unfold SensitivityAnalysis.tpForCriterion
        simp only [if_neg hpos, if_neg hneg]
        exact ⟨by trivial, by trivial⟩
      refine ⟨?_, ?_, fun _ => hscan⟩
      · intro hp
        rw [hsd, hzero] at hp
        exact absurd hp (lt_irrefl 0)
      · intro hn
        rw [hsd, hzero] at hn
        exact absurd hn (lt_irrefl 0)

/-- C6.  `analyze(rankings, criteria, options)` returns `null` with fewer
than 2 ranked options; otherwise, for the criterion at each index: when
`scoreDiff > 0` the scan runs from `currentWeight - 1` down to `1` and
reports the first weight flipping the re-simulated winner (direction
"decrease"); when `scoreDiff < 0` it runs from `currentWeight + 1` up to
`10` (direction "increase"); when `scoreDiff == 0` no tipping point is
reported.  The reported `tippingWeight` is always the candidate closest to
the current weight: every candidate strictly between it and the current
weight leaves the winner unchanged. -/
theorem C6_sensitivity_analyze :
    (∀ (rankings : List RankedOption) (criteria : List Criterion) (options : List JsOption),
      rankings.length < 2 → SensitivityAnalysis.analyze rankings criteria options = none) ∧
    (∀ (w ru : RankedOption) (rest : List RankedOption) (criteria : List Criterion)
        (options : List JsOption) (i : ℕ) (c : Criterion),
      criteria[i]? = some c →
      ∃ res tp,
        SensitivityAnalysis.analyze (w :: ru :: rest) criteria options = some res ∧
        res.tippingPoints[i]? = some tp ∧
        tp.criterionId = c.id ∧
        tp.currentWeight = c.weight ∧
        tp.scoreDiff = SensitivityAnalysis.lookupCS w c.id - SensitivityAnalysis.lookupCS ru c.id ∧
        (0 < tp.scoreDiff →
          ((tp.tippingWeight = none ∧ tp.direction = none ∧
            ∀ v, 1 ≤ v → v < c.weight →
              SensitivityAnalysis.topChanged (w :: ru :: rest) criteria c.id w.id v = false) ∨
           (∃ t, tp.tippingWeight = some t ∧ tp.direction = some "decrease" ∧
            1 ≤ t ∧ t < c.weight ∧
            SensitivityAnalysis.topChanged (w :: ru :: rest) criteria c.id w.id t = true ∧
            ∀ v, t < v → v < c.weight →
              SensitivityAnalysis.topChanged (w :: ru :: rest) criteria c.id w.id v = false))) ∧
        (tp.scoreDiff < 0 →
          ((tp.tippingWeight = none ∧ tp.direction = none ∧
            ∀ v, c.weight < v → v ≤ 10 →
              SensitivityAnalysis.topChanged (w :: ru :: rest) criteria c.id w.id v = false) ∨
           (∃ t, tp.tippingWeight = some t ∧ tp.direction = some "increase" ∧
            c.weight < t ∧ t ≤ 10 ∧
            SensitivityAnalysis.topChanged (w :: ru :: rest) criteria c.id w.id t = true ∧
            ∀ v, c.weight < v → v < t →
              SensitivityAnalysis.topChanged (w :: ru :: rest) criteria c.id w.id v = false))) ∧
        (tp.scoreDiff = 0 → tp.tippingWeight = none ∧ tp.direction = none)) := by
  constructor
  · intro rankings criteria options hlen
    match rankings with
    | [] => rfl
    | [_] => rfl
    | _ :: _ :: _ => exact absurd hlen (by simp)
  · intro w ru rest criteria options i c hc
    refine ⟨_, SensitivityAnalysis.tpForCriterion (w :: ru :: rest) criteria w ru c,
      rfl, ?_, rfl, rfl, rfl, ?_, ?_, ?_⟩
    · show (criteria.map
          (SensitivityAnalysis.tpForCriterion (w :: ru :: rest) criteria w ru))[i]? =
        some (SensitivityAnalysis.tpForCriterion (w :: ru :: rest) criteria w ru c)
      rw [List.getElem?_map, hc]
      rfl
    · exact (tpForCriterion_spec (w :: ru :: rest) criteria w ru c).1
    · exact (tpForCriterion_spec (w :: ru :: rest) criteria w ru c).2.1
    · exact (tpForCriterion_spec (w :: ru :: rest) criteria w ru c).2.2

/-- A concrete criteria-score entry for criterion `"c"` with the given
score, used in sensitivity fixtures. -/
def csFix (s ws : ℚ) : CriteriaScore :=
  { criterionId := "c", criterionName := "c", weight := 5, score := s,
    weightedScore := ws }

/-- Concrete winner fixture for the sensitivity witnesses. -/
def sensWinner : RankedOption := mkRanked "a" 40 50 8 [csFix 8 40]

/-- Concrete runner-up fixture for the sensitivity witnesses. -/
def sensRunner : RankedOption := mkRanked "b" 20 50 4 [csFix 4 20]

/-- Concrete criterion fixture for the sensitivity witnesses. -/
def sensCriterion : Criterion := { id := "c", name := "c", weight := 5 }

/-- Witness for C6 at a concrete two-option ranking and single criterion. -/
theorem C6_sensitivity_analyze_witness :
    ∃ res tp,
      SensitivityAnalysis.analyze [sensWinner, sensRunner] [sensCriterion] [] = some res ∧
      res.tippingPoints[0]? = some tp ∧
      tp.criterionId = sensCriterion.id ∧
      tp.currentWeight = sensCriterion.weight ∧
      tp.scoreDiff = SensitivityAnalysis.lookupCS sensWinner sensCriterion.id -
        SensitivityAnalysis.lookupCS sensRunner sensCriterion.id ∧
      (0 < tp.scoreDiff →
        ((tp.tippingWeight = none ∧ tp.direction = none ∧
          ∀ v, 1 ≤ v → v < sensCriterion.weight →
            SensitivityAnalysis.topChanged [sensWinner, sensRunner] [sensCriterion]
              sensCriterion.id sensWinner.id v = false) ∨
         (∃ t, tp.tippingWeight = some t ∧ tp.direction = some "decrease" ∧
          1 ≤ t ∧ t < sensCriterion.weight ∧
          SensitivityAnalysis.topChanged [sensWinner, sensRunner] [sensCriterion]
            sensCriterion.id sensWinner.id t = true ∧
          ∀ v, t < v → v < sensCriterion.weight →
            SensitivityAnalysis.topChanged [sensWinner, sensRunner] [sensCriterion]
              sensCriterion.id sensWinner.id v = false))) ∧
      (tp.scoreDiff < 0 →
        ((tp.tippingWeight = none ∧ tp.direction = none ∧
          ∀ v, sensCriterion.weight < v → v ≤ 10 →
            SensitivityAnalysis.topChanged [sensWinner, sensRunner] [sensCriterion]
              sensCriterion.id sensWinner.id v = false) ∨
         (∃ t, tp.tippingWeight = some t ∧ tp.direction = some "increase" ∧
          sensCriterion.weight < t ∧ t ≤ 10 ∧
          SensitivityAnalysis.topChanged [sensWinner, sensRunner] [sensCriterion]
            sensCriterion.id sensWinner.id t = true ∧
          ∀ v, sensCriterion.weight < v → v < t →
            SensitivityAnalysis.topChanged [sensWinner, sensRunner] [sensCriterion]
              sensCriterion.id sensWinner.id v = false))) ∧
      (tp.scoreDiff = 0 → tp.tippingWeight = none ∧ tp.direction = none) :=
  C6_sensitivity_analyze.2 sensWinner sensRunner [] [sensCriterion] [] 0 sensCriterion rfl

/-- The filter keeping every criteria-score entry except those for
criterion `cid` with recorded score `0`. -/
def keepCS (cid : String) (cs : CriteriaScore) : Bool :=
  !(decide (cs.criterionId = cid) && decide (cs.score = 0))

/-- Remove from a ranked option's criteria-score breakdown every entry for
criterion `cid` whose recorded score is `0` (turning such entries into
missing entries). -/
def removeZeroCS (cid : String) (r : RankedOption) : RankedOption :=
  { r with criteriaScores := r.criteriaScores.filter (keepCS cid) }

/-- The observable outcome of a sensitivity analysis: everything except
the embedded input ranking objects themselves. -/
def sensView (x : Option SensResult) :
    Option (ℚ × ℚ × List TippingPoint × List TippingPoint × Bool) :=
  x.map (fun s => (s.gapToRunnerUp, s.robustness, s.tippingPoints,
    s.sensitiveCriteria, s.isRobust))

theorem find?_filter_of_imp (p q : α → Bool) (l : List α)
    (h : ∀ x, p x = true → q x = true) :
    (l.filter q).find? p = l.find? p := by
  induction l with
  | nil => rfl
  | cons x t ih =>
    by_cases hq : q x = true
    · rw [List.filter_cons, if_pos hq]
      by_cases hp : p x = true
      · rw [List.find?_cons_of_pos _ hp, List.find?_cons_of_pos _ hp]
      · rw [List.find?_cons_of_neg _ hp, List.find?_cons_of_neg _ hp]
        exact ih
    · have hp : ¬ p x = true := fun hpx => hq (h x hpx)
      rw [List.filter_cons, if_neg hq, List.find?_cons_of_neg _ hp]
      exact ih

theorem keepCS_of_ne (cid : String) (cs : CriteriaScore) (h : ¬ cs.criterionId = cid) :
    keepCS cid cs = true := by
  unfold keepCS
  rw [decide_eq_false h]
  simp

theorem keepCS_of_ne_zero (cid : String) (cs : CriteriaScore) (h : ¬ cs.score = 0) :
    keepCS cid cs = true := by
  unfold keepCS
  rw [decide_eq_false h]
  simp

theorem keepCS_zero (cid : String) (cs : CriteriaScore) (h1 : cs.criterionId = cid)
    (h2 : cs.score = 0) : keepCS cid cs = false := by
  unfold keepCS
  rw [decide_eq_true h1, decide_eq_true h2]
  simp

/-- Effect of dropping the zero-score entries for `cid` on a first-match
lookup: either the lookup is unchanged, or it found a zero-score entry and
now finds nothing. -/
theorem find?_filterZero_cases (cid k : String) (l : List CriteriaScore)
    (hnd : (l.map CriteriaScore.criterionId).Nodup) :
    ((l.filter (keepCS cid)).find? (fun cs => decide (cs.criterionId = k)) =
      l.find? (fun cs => decide (cs.criterionId = k))) ∨
    (∃ e, l.find? (fun cs => decide (cs.criterionId = k)) = some e ∧ e.score = 0 ∧
      (l.filter (keepCS cid)).find? (fun cs => decide (cs.criterionId = k)) = none) := by
  by_cases hk : k = cid
  · subst hk
    induction l with
    | nil => left; rfl
    | cons cs t ih =>
      rw [List.map_cons, List.nodup_cons] at hnd
      obtain ⟨hnotin, hndt⟩ := hnd
      by_cases hc : cs.criterionId = k
      · have hfind : (cs :: t).find? (fun x => decide (x.criterionId = k)) = some cs :=
          List.find?_cons_of_pos _ (decide_eq_true hc)
        by_cases hz : cs.score = 0
        · right
          refine ⟨cs, hfind, hz, ?_⟩
          rw [List.filter_cons, if_neg (by rw [keepCS_zero k cs hc hz]; exact Bool.false_ne_true)]
          apply List.find?_eq_none.mpr
          intro x hx hpx
          have hxt := List.mem_of_mem_filter hx
          have hxk : x.criterionId = k := of_decide_eq_true hpx
          exact hnotin (hc ▸ hxk ▸ List.mem_map_of_mem CriteriaScore.criterionId hxt)
        · left
          rw [List.filter_cons, if_pos (keepCS_of_ne_zero k cs hz), hfind]
          exact List.find?_cons_of_pos _ (decide_eq_true hc)
      · have hpx : ¬ (fun x : CriteriaScore => decide (x.criterionId = k)) cs = true := by
          simp only [decide_eq_false hc]
          exact Bool.false_ne_true
        have h1 : List.find? (fun x : CriteriaScore => decide (x.criterionId = k))
            (cs :: List.filter (keepCS k) t) =
            List.find? (fun x : CriteriaScore => decide (x.criterionId = k))
              (List.filter (keepCS k) t) :=
          List.find?_cons_of_neg _ hpx
        have h2 : List.find? (fun x : CriteriaScore => decide (x.criterionId = k)) (cs :: t) =
            List.find? (fun x : CriteriaScore => decide (x.criterionId = k)) t :=
          List.find?_cons_of_neg _ hpx
        rw [List.filter_cons, if_pos (keepCS_of_ne k cs hc), h1, h2]
        exact ih hndt
  · left
    apply find?_filter_of_imp
    intro x hpx
    have hxk : x.criterionId = k := of_decide_eq_true hpx
    exact keepCS_of_ne cid x (fun hx => hk (hxk ▸ hx ▸ rfl))

/-- C10 key fact: a looked-up zero-score entry yields the absent default 5. -/
theorem lookupCS_found_zero (r : RankedOption) (cid : String) (e : CriteriaScore)
    (hfind : r.criteriaScores.find? (fun cs => decide (cs.criterionId = cid)) = some e)
    (hz : e.score = 0) : SensitivityAnalysis.lookupCS r cid = 5 := by
  unfold SensitivityAnalysis.lookupCS
  rw [hfind, Option.map_some']
  unfold jsOr
  rw [hz]
  simp

theorem criteriaScores_removeZeroCS (cid : String) (r : RankedOption) :
    (removeZeroCS cid r).criteriaScores = r.criteriaScores.filter (keepCS cid) := rfl

theorem lookupCS_removeZero (cid : String) (r : RankedOption)
    (hnd : (r.criteriaScores.map CriteriaScore.criterionId).Nodup) (k : String) :
    SensitivityAnalysis.lookupCS (removeZeroCS cid r) k =
      SensitivityAnalysis.lookupCS r k := by
  unfold SensitivityAnalysis.lookupCS
  rw [criteriaScores_removeZeroCS]
  rcases find?_filterZero_cases cid k r.criteriaScores hnd with h | ⟨e, he, hz, hn⟩
  · rw [h]
  · rw [he, hn, Option.map_some']
    unfold jsOr
    rw [hz]
    simp

theorem foldlUpdate_eval (l : List CriteriaScore) (acc : String → Option ℚ) (k : String) :
    (l.foldl (fun (a : String → Option ℚ) (cs : CriteriaScore) =>
      Function.update a cs.criterionId (some cs.score)) acc) k =
      match l.reverse.find? (fun cs => decide (cs.criterionId = k)) with
      | some cs => some cs.score
      | none => acc k := by
  induction l generalizing acc with
  | nil => rfl
  | cons cs t ih =>
    rw [List.foldl_cons, ih, List.reverse_cons, List.find?_append]
    cases hf : t.reverse.find? (fun x => decide (x.criterionId = k)) with
    | some c => rw [Option.or_some]
    | none =>
      rw [Option.none_or]
      by_cases hck : cs.criterionId = k
      · have hfind : List.find? (fun x : CriteriaScore => decide (x.criterionId = k)) [cs] =
            some cs := List.find?_cons_of_pos _ (decide_eq_true hck)
        rw [hfind]
        subst hck
        rw [Function.update_same]
      · have hfind : List.find? (fun x : CriteriaScore => decide (x.criterionId = k)) [cs] =
            none := by
          apply List.find?_eq_none.mpr
          intro x hx
          rw [List.mem_singleton] at hx
          subst hx
          simp only [decide_eq_false hck]
          exact Bool.false_ne_true
        rw [hfind, Function.update_noteq (fun h => hck h.symm)]

theorem rebuiltScores_jsOr (cid : String) (l : List CriteriaScore)
    (hnd : (l.map CriteriaScore.criterionId).Nodup) (k : String) :
    jsOr (((l.filter (keepCS cid)).foldl
      (fun (a : String → Option ℚ) (cs : CriteriaScore) =>
        Function.update a cs.criterionId (some cs.score)) (fun _ => none)) k) 0 =
    jsOr ((l.foldl
      (fun (a : String → Option ℚ) (cs : CriteriaScore) =>
        Function.update a cs.criterionId (some cs.score)) (fun _ => none)) k) 0 := by
  rw [foldlUpdate_eval, foldlUpdate_eval, ← List.filter_reverse]
  have hndr : (l.reverse.map CriteriaScore.criterionId).Nodup := by
    rw [List.map_reverse]
    exact List.nodup_reverse.mpr hnd
  rcases find?_filterZero_cases cid k l.reverse hndr with h | ⟨e, he, hz, hn⟩
  · rw [h]
  · rw [he, hn]
    simp [jsOr, hz]

/-- The record a ranked option reduces to when its `scores` object is
forgotten (used to state that two ranked options agree everywhere except
in the exact representation of absent-versus-zero scores). -/
def stripScores (r : RankedOption) : RankedOption := { r with scores := fun _ => none }

/-- Two engine inputs that JavaScript scoring cannot distinguish: equal in
every field, with score maps equal up to the `|| 0` read. -/
def OptEquiv (o o' : JsOption) : Prop :=
  o.id = o'.id ∧ o.name = o'.name ∧ o.estimatedCost = o'.estimatedCost ∧
  o.constraintCompliance = o'.constraintCompliance ∧
  ∀ k, jsOr (o.scores k) 0 = jsOr (o'.scores k) 0

/-- Two ranked options that agree everywhere except in the exact score-map
representation (equal up to the `|| 0` read). -/
def REquiv (r r' : RankedOption) : Prop :=
  stripScores r = stripScores r' ∧ ∀ k, jsOr (r.scores k) 0 = jsOr (r'.scores k) 0

theorem calculateScore_congr (o o' : JsOption) (criteria : List Criterion)
    (h : OptEquiv o o') :
    Scoring.calculateScore o criteria = Scoring.calculateScore o' criteria := by
  have hsum : criteria.map (fun c => (c.weight : ℚ) * jsOr (o.scores c.id) 0) =
      criteria.map (fun c => (c.weight : ℚ) * jsOr (o'.scores c.id) 0) :=
    List.map_congr_left (fun c _ => by rw [h.2.2.2.2 c.id])
  unfold Scoring.calculateScore
  rw [Scoring.calculateScore_foldl, Scoring.calculateScore_foldl, hsum]

theorem getCriteriaBreakdown_congr (o o' : JsOption) (criteria : List Criterion)
    (h : OptEquiv o o') :
    Scoring.getCriteriaBreakdown o criteria = Scoring.getCriteriaBreakdown o' criteria := by
  unfold Scoring.getCriteriaBreakdown
  exact List.map_congr_left (fun c _ => by rw [h.2.2.2.2 c.id])

theorem calculateConstraintPenalty_congr (o o' : JsOption) (constraints : Option Constraints)
    (h : OptEquiv o o') :
    Scoring.calculateConstraintPenalty o constraints =
      Scoring.calculateConstraintPenalty o' constraints := by
  have hbud : ∀ cs, Scoring.budgetStep o cs = Scoring.budgetStep o' cs := by
    intro cs
    unfold Scoring.budgetStep
    rw [h.2.2.1]
  have hcomp : ∀ st, Scoring.complianceStep o st = Scoring.complianceStep o' st := by
    intro st
    unfold Scoring.complianceStep
    rw [h.2.2.2.1]
  unfold Scoring.calculateConstraintPenalty
  match constraints with
  | none => rfl
  | some cs =>
    simp only
    rw [hbud, hcomp]

theorem scoreOption_congr (constraints : Option Constraints) (criteria : List Criterion)
    (o o' : JsOption) (h : OptEquiv o o') :
    REquiv (Scoring.scoreOption constraints criteria o)
      (Scoring.scoreOption constraints criteria o') := by
  constructor
  · show stripScores (Scoring.scoreOption constraints criteria o) =
      stripScores (Scoring.scoreOption constraints criteria o')
    unfold Scoring.scoreOption stripScores
    rw [calculateScore_congr o o' criteria h,
      calculateConstraintPenalty_congr o o' constraints h,
      getCriteriaBreakdown_congr o o' criteria h,
      h.1, h.2.1, h.2.2.1, h.2.2.2.1]
  · intro k
    show jsOr (o.scores k) 0 = jsOr (o'.scores k) 0
    exact h.2.2.2.2 k

theorem forall2_map {R : α → β → Prop} {S : γ → δ → Prop} (f : α → γ) (g : β → δ)
    (hfg : ∀ a b, R a b → S (f a) (g b)) :
    ∀ {l : List α} {l' : List β}, List.Forall₂ R l l' →
      List.Forall₂ S (l.map f) (l'.map g)
  | _, _, List.Forall₂.nil => List.Forall₂.nil
  | _, _, List.Forall₂.cons hab hts =>
    List.Forall₂.cons (hfg _ _ hab) (forall2_map f g hfg hts)

theorem REquiv_totalScore {r r' : RankedOption} (h : REquiv r r') :
    r.totalScore = r'.totalScore := by
  have hts := congrArg RankedOption.totalScore h.1
  exact hts

theorem REquiv_id {r r' : RankedOption} (h : REquiv r r') : r.id = r'.id := by
  have hid := congrArg RankedOption.id h.1
  exact hid

theorem insertByKey_forall2 {R : α → α → Prop} (key : α → ℚ)
    (hkey : ∀ a b, R a b → key a = key b) (x x' : α) (hx : R x x') :
    ∀ {l l' : List α}, List.Forall₂ R l l' →
      List.Forall₂ R (insertByKey key x l) (insertByKey key x' l') := by
  intro l l' hll
  induction hll with
  | nil => exact List.Forall₂.cons hx List.Forall₂.nil
  | cons hab hts ih =>
    rename_i a b l₁ l₂
    show List.Forall₂ R (insertByKey key x (a :: l₁)) (insertByKey key x' (b :: l₂))
    unfold insertByKey
    by_cases hc : key x < key a
    · rw [if_pos hc, if_pos (by rw [← hkey x x' hx, ← hkey a b hab]; exact hc)]
      exact List.Forall₂.cons hab ih
    · rw [if_neg hc, if_neg (by rw [← hkey x x' hx, ← hkey a b hab]; exact hc)]
      exact List.Forall₂.cons hx (List.Forall₂.cons hab hts)

theorem sortByKey_forall2 {R : α → α → Prop} (key : α → ℚ)
    (hkey : ∀ a b, R a b → key a = key b) :
    ∀ {l l' : List α}, List.Forall₂ R l l' →
      List.Forall₂ R (sortByKey key l) (sortByKey key l') := by
  intro l l' hll
  induction hll with
  | nil => exact List.Forall₂.nil
  | cons hab _ ih => exact insertByKey_forall2 key hkey _ _ hab ih

theorem REquiv_setRank {r r' : RankedOption} (n : ℕ) (h : REquiv r r') :
    REquiv { r with rank := n } { r' with rank := n } := by
  constructor
  · show ({ r with rank := n, scores := fun _ => none } : RankedOption) =
      { r' with rank := n, scores := fun _ => none }
    have h1 : ({ r with scores := fun _ => none } : RankedOption) =
        { r' with scores := fun _ => none } := h.1
    calc ({ r with rank := n, scores := fun _ => none } : RankedOption)
        = { ({ r with scores := fun _ => none } : RankedOption) with rank := n } := rfl
      _ = { ({ r' with scores := fun _ => none } : RankedOption) with rank := n } := by rw [h1]
      _ = { r' with rank := n, scores := fun _ => none } := rfl
  · exact h.2

theorem addRanksFrom_forall2 :
    ∀ (i : ℕ) {l l' : List RankedOption}, List.Forall₂ REquiv l l' →
      List.Forall₂ REquiv (Scoring.addRanksFrom i l) (Scoring.addRanksFrom i l') := by
  intro i l l' hll
  induction hll generalizing i with
  | nil => exact List.Forall₂.nil
  | cons hab _ ih =>
    exact List.Forall₂.cons (REquiv_setRank _ hab) (ih _)

theorem generateRankings_forall2 (options options' : List JsOption)
    (criteria : List Criterion) (constraints : Option Constraints)
    (h : List.Forall₂ OptEquiv options options') :
    List.Forall₂ REquiv (Scoring.generateRankings options criteria constraints).rankings
      (Scoring.generateRankings options' criteria constraints).rankings := by
  have hlen : options.length = options'.length := h.length_eq
  unfold Scoring.generateRankings
  by_cases hcond : options.length = 0 ∨ criteria.length = 0
  · rw [if_pos hcond, if_pos (by rw [← hlen]; exact hcond)]
    exact List.Forall₂.nil
  · rw [if_neg hcond, if_neg (by rw [← hlen]; exact hcond)]
    apply addRanksFrom_forall2
    apply sortByKey_forall2 RankedOption.totalScore (fun a b hab => REquiv_totalScore hab)
    exact forall2_map _ _ (fun a b hab => scoreOption_congr constraints criteria a b hab) h

theorem simulateWithWeight_forall2 (cid : String) (rankings : List RankedOption)
    (criteria : List Criterion) (cid2 : String) (w : ℕ)
    (hnd : ∀ r ∈ rankings, (r.criteriaScores.map CriteriaScore.criterionId).Nodup) :
    List.Forall₂ REquiv
      (SensitivityAnalysis.simulateWithWeight (rankings.map (removeZeroCS cid)) criteria cid2 w)
      (SensitivityAnalysis.simulateWithWeight rankings criteria cid2 w) := by
  unfold SensitivityAnalysis.simulateWithWeight
  apply generateRankings_forall2
  rw [List.map_map]
  induction rankings with
  | nil => exact List.Forall₂.nil
  | cons r t ih =>
    rw [List.map_cons, List.map_cons]
    refine List.Forall₂.cons ?_ (ih (fun x hx => hnd x (List.mem_cons_of_mem r hx)))
    refine ⟨rfl, rfl, rfl, rfl, ?_⟩
    intro k
    show jsOr (((removeZeroCS cid r).criteriaScores.foldl
        (fun (acc : String → Option ℚ) (cs : CriteriaScore) =>
          Function.update acc cs.criterionId (some cs.score))
        (fun _ => none)) k) 0 =
      jsOr ((r.criteriaScores.foldl
        (fun (acc : String → Option ℚ) (cs : CriteriaScore) =>
          Function.update acc cs.criterionId (some cs.score))
        (fun _ => none)) k) 0
    rw [criteriaScores_removeZeroCS]
    exact rebuiltScores_jsOr cid r.criteriaScores (hnd r (List.mem_cons_self r t)) k

theorem topChanged_head_eq {A B : List RankedOption}
    (hf2 : List.Forall₂ REquiv A B) (winnerId : String) :
    (match A.head? with
      | some top => decide (top.id ≠ winnerId)
      | none => true) =
    (match B.head? with
      | some top => decide (top.id ≠ winnerId)
      | none => true) := by
  cases hf2 with
  | nil => rfl
  | cons hab hts =>
    simp only [List.head?_cons]
    rw [REquiv_id hab]

theorem topChanged_removeZero (cid : String) (rankings : List RankedOption)
    (criteria : List Criterion) (cid2 winnerId : String) (v : ℕ)
    (hnd : ∀ r ∈ rankings, (r.criteriaScores.map CriteriaScore.criterionId).Nodup) :
    SensitivityAnalysis.topChanged (rankings.map (removeZeroCS cid)) criteria cid2 winnerId v =
      SensitivityAnalysis.topChanged rankings criteria cid2 winnerId v := by
  unfold SensitivityAnalysis.topChanged
  exact topChanged_head_eq (simulateWithWeight_forall2 cid rankings criteria cid2 v hnd) winnerId

theorem tpForCriterion_removeZero (cid : String) (w ru : RankedOption)
    (rest : List RankedOption) (criteria : List Criterion) (c : Criterion)
    (hnd : ∀ r ∈ w :: ru :: rest, (r.criteriaScores.map CriteriaScore.criterionId).Nodup) :
    SensitivityAnalysis.tpForCriterion ((w :: ru :: rest).map (removeZeroCS cid)) criteria
      (removeZeroCS cid w) (removeZeroCS cid ru) c =
    SensitivityAnalysis.tpForCriterion (w :: ru :: rest) criteria w ru c := by
  have h1 : SensitivityAnalysis.lookupCS (removeZeroCS cid w) c.id =
      SensitivityAnalysis.lookupCS w c.id :=
    lookupCS_removeZero cid w (hnd w (List.mem_cons_self _ _)) c.id
  have h2 : SensitivityAnalysis.lookupCS (removeZeroCS cid ru) c.id =
      SensitivityAnalysis.lookupCS ru c.id :=
    lookupCS_removeZero cid ru
      (hnd ru (List.mem_cons_of_mem _ (List.mem_cons_self _ _))) c.id
  have h3 : SensitivityAnalysis.topChanged ((w :: ru :: rest).map (removeZeroCS cid))
      criteria c.id (removeZeroCS cid w).id =
      SensitivityAnalysis.topChanged (w :: ru :: rest) criteria c.id w.id := by
    funext v
    have hid : (removeZeroCS cid w).id = w.id := rfl
    rw [hid]
    exact topChanged_removeZero cid (w :: ru :: rest) criteria c.id w.id v hnd
  simp only [SensitivityAnalysis.tpForCriterion]
  rw [h1, h2, h3]

theorem analyze_removeZero (cid : String) (rankings : List RankedOption)
    (criteria : List Criterion) (opts : List JsOption)
    (hnd : ∀ r ∈ rankings, (r.criteriaScores.map CriteriaScore.criterionId).Nodup) :
    sensView (SensitivityAnalysis.analyze (rankings.map (removeZeroCS cid)) criteria opts) =
      sensView (SensitivityAnalysis.analyze rankings criteria opts) := by
  match rankings, hnd with
  | [], _ => rfl
  | [r], _ => rfl
  | w :: ru :: rest, hnd =>
    have htp : criteria.map (SensitivityAnalysis.tpForCriterion
        (removeZeroCS cid w :: removeZeroCS cid ru :: rest.map (removeZeroCS cid)) criteria
        (removeZeroCS cid w) (removeZeroCS cid ru)) =
      criteria.map (SensitivityAnalysis.tpForCriterion (w :: ru :: rest) criteria w ru) :=
      List.map_congr_left (fun c _ => tpForCriterion_removeZero cid w ru rest criteria c hnd)
    show sensView (SensitivityAnalysis.analyze
        (removeZeroCS cid w :: removeZeroCS cid ru :: rest.map (removeZeroCS cid))
        criteria opts) =
      sensView (SensitivityAnalysis.analyze (w :: ru :: rest) criteria opts)
    have hgw : (removeZeroCS cid w).normalizedScore = w.normalizedScore := rfl
    have hgru : (removeZeroCS cid ru).normalizedScore = ru.normalizedScore := rfl
    simp only [SensitivityAnalysis.analyze, sensView, Option.map_some']
    rw [htp, hgw, hgru]

/-- C10.  In `SensitivityAnalysis.analyze`, a criteria-score entry whose
score is `0` is treated identically to a missing entry: the per-criterion
lookup returns the absent-score default `5` for such an entry, and deleting
all zero-score entries for a criterion from every ranked option changes
nothing observable in the analysis — the winner/runner-up scores,
`scoreDiff`, scan direction, and reported `tippingWeight` (and hence every
tipping point, the robustness score and `isRobust`) are identical.  (The
no-duplicate hypothesis reflects that `getCriteriaBreakdown` emits one
entry per criterion id.) -/
theorem C10_zero_score_entry_as_missing :
    (∀ (r : RankedOption) (cid : String) (e : CriteriaScore),
      r.criteriaScores.find? (fun cs => decide (cs.criterionId = cid)) = some e →
      e.score = 0 →
      SensitivityAnalysis.lookupCS r cid = 5) ∧
    (∀ (rankings : List RankedOption) (criteria : List Criterion)
        (opts : List JsOption) (cid : String),
      (∀ r ∈ rankings, (r.criteriaScores.map CriteriaScore.criterionId).Nodup) →
      sensView (SensitivityAnalysis.analyze (rankings.map (removeZeroCS cid)) criteria opts) =
        sensView (SensitivityAnalysis.analyze rankings criteria opts)) :=
  ⟨lookupCS_found_zero, fun rankings criteria opts cid hnd =>
    analyze_removeZero cid rankings criteria opts hnd⟩

/-- Witness for C10 at a concrete ranking whose winner records a zero
score for criterion `"c"`. -/
theorem C10_zero_score_entry_as_missing_witness :
    sensView (SensitivityAnalysis.analyze
      ([mkRanked "a" 0 50 0 [csFix 0 0], mkRanked "b" 20 50 4 [csFix 4 20]].map
        (removeZeroCS "c"))
      [sensCriterion] []) =
    sensView (SensitivityAnalysis.analyze
      [mkRanked "a" 0 50 0 [csFix 0 0], mkRanked "b" 20 50 4 [csFix 4 20]]
      [sensCriterion] []) :=
  C10_zero_score_entry_as_missing.2
    [mkRanked "a" 0 50 0 [csFix 0 0], mkRanked "b" 20 50 4 [csFix 4 20]]
    [sensCriterion] [] "c"
    (by
      intro r hr
      rcases List.mem_cons.mp hr with rfl | hr
      · exact List.nodup_singleton _
      · rcases List.mem_cons.mp hr with rfl | hr
        · exact List.nodup_singleton _
        · cases hr)
